import Mathlib

/-!
# Crane: recommendation controller and percentile configuration

A shallow embedding of

* `pkg/controller/recommendation/recommendation_controller.go`
  (`Reconcile`, `ShouldRecommend`, `DoRecommend`, `UpdateStatus`, `setReadyCondition`);
* `pkg/prediction/percentile/config.go` (`makeInternalConfig`).

Conventions of the embedding.

* A `time.Time` is an instant, counted in nanoseconds as an unbounded integer; `Time.Add`
  is addition and `Time.Before` is `<`.  (The 64-bit second counter of `time.Time` cannot
  overflow by adding one `time.Duration`, which is below 2^63 ns, to a calendar instant.)
* A `time.Duration` is an `int64` of nanoseconds: arithmetic on it wraps modulo 2^64.
* A Go pointer that may be nil is an `Option`; dereferencing `none` is a run-time panic,
  which the embedding shows as the result `none` of the function.
* The collaborators of the controller (object store, recommender pipeline, event
  recorder, clock) are explicit: their answers are fields of `Env` and `Clock`, their
  observable effects are logged in `World`.  The stages of the pipeline read the object
  they are given and do not write to it; a successful `c.Update` leaves the object in
  memory as it was sent and makes it the stored object.  Calls of `klog` are left out.
* `float64` is a type parameter `F` with decimal literals and addition; the functions of
  other packages that `makeInternalConfig` calls are the fields of `Lib`.
* What the claims need of code that is not in the two files is a definition whose comment
  starts with "Modelled from the spec": `ParseFloat`, `Lib.rejectsInvalid`,
  `Env.keepsConditions`.
-/

namespace Crane

/-! ## Machine integers, time -/

/-- Two's complement wrap of an integer to `int64`. -/
def wrapInt64 (x : Int) : Int := (x + 2 ^ 63) % 2 ^ 64 - 2 ^ 63

/-- The largest `int64`. -/
def maxInt64 : Int := 2 ^ 63 - 1

/-- The smallest `int64`. -/
def minInt64 : Int := -(2 ^ 63)

/-- Instants (`time.Time`, `metav1.Time`), in nanoseconds. -/
abbrev Time := Int

/-- Values of `time.Duration`: `int64` nanoseconds. -/
abbrev Duration := Int

/-- The constant `time.Second`. -/
def Second : Duration := 1000000000

/-- Multiplication of two `time.Duration` values (`int64`, wrapping). -/
def Duration.mul (a b : Duration) : Duration := wrapInt64 (a * b)

/-- The method `Time.Add`. -/
def Time.Add (t : Time) (d : Duration) : Time := t + d

/-- The method `Time.Before`. -/
def Time.Before (t u : Time) : Bool := decide (t < u)

/-! ## The Recommendation object (`analysis/v1alpha1`, `metav1`) -/

/-- The value `metav1.ConditionTrue`. -/
def ConditionTrue : String := "True"

/-- The value `metav1.ConditionFalse`. -/
def ConditionFalse : String := "False"

/-- The value `analysisv1alph1.CompletionStrategyOnce`. -/
def CompletionStrategyOnce : String := "Once"

/-- The value `analysisv1alph1.CompletionStrategyPeriodical`. -/
def CompletionStrategyPeriodical : String := "Periodical"

/-- The value `v1.EventTypeWarning`. -/
def EventTypeWarning : String := "Warning"

/-- A `metav1.Condition`. -/
structure Condition where
  Type_ : String
  Status : String
  ObservedGeneration : Int
  LastTransitionTime : Time
  Reason : String
  Message : String
deriving DecidableEq, Repr

/-- The status of a Recommendation: conditions, last update time, recommended value. -/
structure RecommendationStatus where
  RecommendedValue : String
  Conditions : List Condition
  LastUpdateTime : Option Time
deriving DecidableEq, Repr

/-- The target reference of a Recommendation (`corev1.ObjectReference`). -/
structure ObjectReference where
  Kind : String
  Namespace : String
  Name : String
  APIVersion : String
deriving DecidableEq, Repr

/-- The completion strategy: its type (a string) and the optional period (`*int64`). -/
structure CompletionStrategy where
  CompletionStrategyType : String
  PeriodSeconds : Option Int
deriving DecidableEq, Repr

/-- The spec of a Recommendation. -/
structure RecommendationSpec where
  TargetRef : ObjectReference
  Type_ : String
  CompletionStrategy : CompletionStrategy
deriving DecidableEq, Repr

/-- A Recommendation object: the metadata the controller reads, spec and status. -/
structure Recommendation where
  Namespace : String
  Name : String
  DeletionTimestamp : Option Time
  Spec : RecommendationSpec
  Status : RecommendationStatus
deriving DecidableEq, Repr

/-! ## `ShouldRecommend` -/

/-- `Controller.ShouldRecommend` (lines 76-94).  `now` is the reading of `time.Now()`.
The result `none` is the nil-pointer panic of `*PeriodSeconds` at line 86. -/
def ShouldRecommend (now : Time) (recommendation : Recommendation) : Option Bool :=
  let lastUpdateTime := recommendation.Status.LastUpdateTime
  if recommendation.Spec.CompletionStrategy.CompletionStrategyType = CompletionStrategyOnce then
    match lastUpdateTime with
    | some _ => some false
    | none => some true
  else
    match lastUpdateTime with
    | some t =>
      match recommendation.Spec.CompletionStrategy.PeriodSeconds with
      | none => none
      | some p =>
        let planingTime := Time.Add t (Duration.mul p Second)
        if Time.Before now planingTime then some false else some true
    | none => some true

/-! ## `setReadyCondition` -/

/-- The loop and the final `append` of `setReadyCondition` (lines 159-174) on the slice
`status.Conditions`: the first entry whose type is `"Ready"` is overwritten in place and
the function returns; when the loop finds none, a new entry is appended.  `now` is the
reading of `metav1.Now()` (one reading per call, on either path). -/
def setReadyConditionList (now : Time) (conditionStatus reason message : String) :
    List Condition → List Condition
  | [] =>
    [{ Type_ := "Ready", Status := conditionStatus, ObservedGeneration := 0,
       LastTransitionTime := now, Reason := reason, Message := message }]
  | c :: rest =>
    if c.Type_ = "Ready" then
      { c with Status := conditionStatus, Reason := reason, Message := message,
               LastTransitionTime := now } :: rest
    else
      c :: setReadyConditionList now conditionStatus reason message rest

/-- `setReadyCondition` (lines 158-175): only `status.Conditions` is written. -/
def setReadyCondition (now : Time) (status : RecommendationStatus)
    (conditionStatus reason message : String) : RecommendationStatus :=
  { status with
    Conditions := setReadyConditionList now conditionStatus reason message status.Conditions }

/-- The entry a ConditionSet upsert writes for a type that is absent. -/
def ConditionSet.fresh (now : Time) (type status reason message : String) : Condition :=
  { Type_ := type, Status := status, ObservedGeneration := 0, LastTransitionTime := now,
    Reason := reason, Message := message }

/-- The overwrite a ConditionSet upsert applies to an existing entry. -/
def ConditionSet.overwrite (now : Time) (status reason message : String) (c : Condition) :
    Condition :=
  { c with Status := status, Reason := reason, Message := message, LastTransitionTime := now }

/-- The reference upsert of the specification (section 4.5), written from its words: a
linear scan for the position of an existing entry of the type; if found, that entry has
status, reason and message overwritten and its `lastTransitionTime` refreshed; if absent,
a new entry is appended. -/
def ConditionSet.upsert (now : Time) (type status reason message : String)
    (conditions : List Condition) : List Condition :=
  match conditions.findIdx? (fun c => decide (c.Type_ = type)) with
  | some i => conditions.modify (ConditionSet.overwrite now status reason message) i
  | none => conditions ++ [ConditionSet.fresh now type status reason message]

/-- The first condition of type `"Ready"` of a status, if any. -/
def readyCondition (status : RecommendationStatus) : Option Condition :=
  status.Conditions.find? (fun c => decide (c.Type_ = "Ready"))

/-! ## Collaborators: store, pipeline, recorder, clock -/

/-- A proposed recommendation, the value `recommender.Offer()` returns; the controller
only hands it on to `UpdateRecommendation`. -/
structure ProposedRecommendation where
  payload : String
deriving DecidableEq, Repr

/-- A recommender, as far as the controller uses it: the answer of its method `Offer`
(the proposed value, or the text of the error). -/
structure Recommender where
  Offer : Except String ProposedRecommendation

/-- An event handed to `c.Recorder.Event`: the object it is about, type, reason, message. -/
structure Event where
  Namespace : String
  Name : String
  EventType : String
  Reason : String
  Message : String
deriving DecidableEq, Repr

/-- A call of a stage of the recommendation pipeline, with the object it was given. -/
inductive PipelineCall where
  | NewRecommender (recommendation : Recommendation)
  | Offer
  | UpdateRecommendation (recommendation : Recommendation) (proposed : ProposedRecommendation)
      (status : RecommendationStatus)
deriving DecidableEq, Repr

/-- The errors of `c.Client.Get`: the object is not found, or any other failure. -/
inductive ClientError where
  | NotFound
  | Other (text : String)
deriving DecidableEq, Repr

/-- The answers of the collaborators during one reconciliation.
* `GetError`: a failure of the store on `Get` other than "not found";
* `NewRecommender`: the result of `recommend.NewRecommender` for the object;
* `UpdateRecommendation`: the method `c.UpdateRecommendation`, which is not part of the
  file: it may rewrite the status it is given and may fail;
* `Update`: the error of `c.Update` for the object, `none` when the write succeeds. -/
structure Env where
  GetError : Option String
  NewRecommender : Recommendation → Except String Recommender
  UpdateRecommendation :
    Recommendation → ProposedRecommendation → RecommendationStatus →
      RecommendationStatus × Option String
  Update : Recommendation → Option String

/-- The readings of the clock during one reconciliation: `time.Now()` in `ShouldRecommend`,
`metav1.Now()` in `setReadyCondition`, `metav1.Now()` in `UpdateStatus`.  Each is read at
most once in a pass. -/
structure Clock where
  tShould : Time
  tCondition : Time
  tUpdate : Time
deriving DecidableEq, Repr

/-- What a reconciliation can observe and change outside the object in memory: the object
in the store, the events recorded, the objects passed to `c.Update` (in call order), the
pipeline stages called (in call order). -/
structure World where
  stored : Option Recommendation
  events : List Event
  updates : List Recommendation
  calls : List PipelineCall
deriving DecidableEq, Repr

/-- A world with the given stored object and no effect logged yet. -/
def World.init (stored : Option Recommendation) : World :=
  { stored := stored, events := [], updates := [], calls := [] }

/-- `c.Recorder.Event(recommendation, eventtype, reason, message)`. -/
def World.Event (w : World) (recommendation : Recommendation)
    (eventtype reason message : String) : World :=
  { w with events := w.events ++
      [{ Namespace := recommendation.Namespace, Name := recommendation.Name,
         EventType := eventtype, Reason := reason, Message := message }] }

/-- Logging of a pipeline call. -/
def World.call (w : World) (c : PipelineCall) : World :=
  { w with calls := w.calls ++ [c] }

/-- `klog.KObj(obj)` printed with `%s`: `namespace/name`, or `name` without a namespace. -/
def KObj (recommendation : Recommendation) : String :=
  if recommendation.Namespace = "" then recommendation.Name
  else recommendation.Namespace ++ "/" ++ recommendation.Name

/-- A request of the reconciler: the `NamespacedName` of the object. -/
structure Request where
  Namespace : String
  Name : String
deriving DecidableEq, Repr

/-- `c.Client.Get(ctx, req.NamespacedName, recommendation)`. -/
def ClientGet (env : Env) (w : World) (req : Request) : Except ClientError Recommendation :=
  match env.GetError with
  | some text => .error (.Other text)
  | none =>
    match w.stored with
    | some r =>
      if r.Namespace = req.Namespace ∧ r.Name = req.Name then .ok r else .error .NotFound
    | none => .error .NotFound

/-- `client.IgnoreNotFound(err)`. -/
def IgnoreNotFound : ClientError → Option ClientError
  | .NotFound => none
  | e => some e

/-! ## `UpdateStatus`, `DoRecommend`, `Reconcile` -/

/-- `Controller.UpdateStatus` (lines 135-150).  `equality.Semantic.DeepEqual` on two
statuses is equality of the embedded values (an instant equals an instant, a nil slice
equals an empty one).  Returns the world and the object in memory after the call. -/
def UpdateStatus (env : Env) (clock : Clock) (w : World) (recommendation : Recommendation)
    (newStatus : RecommendationStatus) : World × Recommendation :=
  if ¬ (recommendation.Status = newStatus) then
    let recommendation := { recommendation with Status := newStatus }
    let timeNow := clock.tUpdate
    let recommendation :=
      { recommendation with Status := { recommendation.Status with LastUpdateTime := some timeNow } }
    let w := { w with updates := w.updates ++ [recommendation] }
    match env.Update recommendation with
    | some err =>
      (w.Event recommendation EventTypeWarning "FailedUpdateStatus" err, recommendation)
    | none => ({ w with stored := some recommendation }, recommendation)
  else
    (w, recommendation)

/-- The stages of `Controller.DoRecommend` (lines 99-131) up to the call of `UpdateStatus`
that ends each of its four paths: the world after the stages and the status that path
hands to `UpdateStatus`. -/
def DoRecommendStages (env : Env) (clock : Clock) (w : World) (recommendation : Recommendation) :
    World × RecommendationStatus :=
  let newStatus := recommendation.Status
  let w := w.call (.NewRecommender recommendation)
  match env.NewRecommender recommendation with
  | .error err =>
    let w := w.Event recommendation EventTypeWarning "FailedCreateRecommender" err
    let msg := "Failed to create recommender, Recommendation " ++ KObj recommendation ++
      " error " ++ err
    (w, setReadyCondition clock.tCondition newStatus ConditionFalse "FailedCreateRecommender" msg)
  | .ok recommender =>
    let w := w.call .Offer
    match recommender.Offer with
    | .error err =>
      let w := w.Event recommendation EventTypeWarning "FailedOfferRecommendation" err
      let msg := "Failed to offer recommend, Recommendation " ++ KObj recommendation ++
        ": " ++ err
      (w, setReadyCondition clock.tCondition newStatus ConditionFalse "FailedOfferRecommend" msg)
    | .ok proposed =>
      let w := w.call (.UpdateRecommendation recommendation proposed newStatus)
      match env.UpdateRecommendation recommendation proposed newStatus with
      | (newStatus, some err) =>
        let w := w.Event recommendation EventTypeWarning "FailedUpdateRecommendationValue" err
        let msg := "Failed to update recommendation value, Recommendation " ++
          KObj recommendation ++ ": " ++ err
        (w, setReadyCondition clock.tCondition newStatus ConditionFalse
          "FailedUpdateRecommendationValue" msg)
      | (newStatus, none) =>
        (w, setReadyCondition clock.tCondition newStatus ConditionTrue "RecommendationReady"
          "Recommendation is ready")

/-- `Controller.DoRecommend` (lines 96-133): the stages, then `UpdateStatus` with the status
of the path taken. -/
def DoRecommend (env : Env) (clock : Clock) (w : World) (recommendation : Recommendation) :
    World × Recommendation :=
  let staged := DoRecommendStages env clock w recommendation
  UpdateStatus env clock staged.1 recommendation staged.2

/-- A `ctrl.Result`. -/
structure Result where
  Requeue : Bool
  RequeueAfter : Duration
deriving DecidableEq, Repr

/-- The zero value `ctrl.Result{}`: no further action. -/
def Result.empty : Result := { Requeue := false, RequeueAfter := 0 }

/-- A result asks the dispatcher to run the key again: `Requeue` is set or `RequeueAfter`
is greater than zero (the contract of `ctrl.Result`). -/
def Result.requeues (r : Result) : Prop := r.Requeue = true ∨ 0 < r.RequeueAfter

instance (r : Result) : Decidable r.requeues := by
  unfold Result.requeues; exact inferInstance

/-- Lines 56-59 of `Reconcile`, the defaulting for `TargetRef.Namespace`: the object in
memory is overwritten. -/
def defaultTargetRefNamespace (recommendation : Recommendation) : Recommendation :=
  if recommendation.Spec.TargetRef.Namespace = "" then
    { recommendation with Spec := { recommendation.Spec with
        TargetRef := { recommendation.Spec.TargetRef with
          Namespace := recommendation.Namespace } } }
  else recommendation

/-- What a call of `Reconcile` returns and leaves behind: the result and the error it
returns, the world after the call, and the object in memory when it returns (`none` when
no object was loaded). -/
structure Outcome where
  result : Result
  err : Option ClientError
  world : World
  recommendation : Option Recommendation
deriving DecidableEq, Repr

/-- `Controller.Reconcile` (lines 37-73).  The result `none` is a panic of the call. -/
def Reconcile (env : Env) (clock : Clock) (w : World) (req : Request) : Option Outcome :=
  match ClientGet env w req with
  | .error err =>
    some { result := Result.empty, err := IgnoreNotFound err, world := w, recommendation := none }
  | .ok recommendation =>
    match recommendation.DeletionTimestamp with
    | some _ =>
      some { result := Result.empty, err := none, world := w,
             recommendation := some recommendation }
    | none =>
      match ShouldRecommend clock.tShould recommendation with
      | none => none
      | some false =>
        some { result := Result.empty, err := none, world := w,
               recommendation := some recommendation }
      | some true =>
        let recommendation := defaultTargetRefNamespace recommendation
        let done := DoRecommend env clock w recommendation
        let w := done.1
        let recommendation := done.2
        if recommendation.Spec.CompletionStrategy.CompletionStrategyType =
            CompletionStrategyPeriodical then
          match recommendation.Spec.CompletionStrategy.PeriodSeconds with
          | some p =>
            let d := Duration.mul Second p
            some { result := { Requeue := false, RequeueAfter := d }, err := none, world := w,
                   recommendation := some recommendation }
          | none =>
            some { result := Result.empty, err := none, world := w,
                   recommendation := some recommendation }
        else
          some { result := Result.empty, err := none, world := w,
                 recommendation := some recommendation }

/-! ## Percentile configuration (`pkg/prediction/percentile/config.go`) -/

/-- The histogram part of a `v1alpha1.Percentile`: all fields are strings. -/
structure HistogramConfig where
  MaxValue : String
  Epsilon : String
  HalfLife : String
  BucketSize : String
  FirstBucketSize : String
  BucketSizeGrowthRatio : String
deriving DecidableEq, Repr

/-- A `v1alpha1.Percentile`, the input of `makeInternalConfig`. -/
structure Percentile where
  SampleInterval : String
  Histogram : HistogramConfig
  MinSampleWeight : String
  MarginFraction : String
  Percentile : String
  Aggregated : Bool
deriving DecidableEq, Repr

/-- The constant `time.Minute`. -/
def Minute : Duration := 60 * Second

/-- The constant `time.Hour`. -/
def Hour : Duration := 60 * Minute

/-- The library functions `makeInternalConfig` calls, over a type `F` of `float64` values
and a type `H` of (non-nil) `vpa.HistogramOptions`:
* `ParseDuration`: `utils.ParseDuration`, the duration or the text of the error;
* `ParseFloat64`: `strconv.ParseFloat(str, 64)`;
* the two constructors of the histogram library, the options or the text of the error. -/
structure Lib (F H : Type) where
  ParseDuration : String → Except String Duration
  ParseFloat64 : String → Except String F
  NewLinearHistogramOptions : F → F → F → Except String H
  NewExponentialHistogramOptions : F → F → F → F → Except String H

/-- Modelled from the spec: `utils.ParseFloat` of `pkg/utils`, which is not among the
sources.  A present (non-empty) field is parsed from its string form and a parse failure
is an error; only an absent (empty) field yields the default. -/
def ParseFloat {F H : Type} (lib : Lib F H) (str : String) (defaultValue : F) :
    Except String F :=
  if str.length = 0 then .ok defaultValue else lib.ParseFloat64 str

/-- The internal configuration of the percentile predictor. `histogramOptions` is an
interface value: `none` is nil. -/
structure internalConfig (F H : Type) where
  aggregated : Bool
  historyLength : Duration
  sampleInterval : Duration
  histogramOptions : Option H
  histogramDecayHalfLife : Duration
  minSampleWeight : F
  marginFraction : F
  percentile : F

/-- The variable `defaultMinSampleWeight`. -/
def defaultMinSampleWeight {F : Type} [OfScientific F] : F := 1e-5

/-- The variable `defaultMarginFraction`. -/
def defaultMarginFraction {F : Type} [OfScientific F] : F := 0.25

/-- The variable `defaultPercentile`. -/
def defaultPercentile {F : Type} [OfScientific F] : F := 0.99

/-- The variable `defaultHistogramOptions` (line 18): the error of the constructor is
dropped, and the options are nil when it fails. -/
def defaultHistogramOptions {F H : Type} [OfScientific F] (lib : Lib F H) : Option H :=
  match lib.NewLinearHistogramOptions 100.0 0.1 1e-10 with
  | .ok options => some options
  | .error _ => none

/-- Lines 110-137 of `makeInternalConfig`: the three remaining numeric fields and the
construction of the configuration, once the durations and the histogram options are
there.  The pair is Go's `(*internalConfig, error)`. -/
def makeInternalConfigTail {F H : Type} [OfScientific F] (lib : Lib F H) (p : Percentile)
    (sampleInterval halfLife : Duration) (options : Option H) :
    Option (internalConfig F H) × Option String :=
  match ParseFloat lib p.Percentile defaultPercentile with
  | .error err => (none, some err)
  | .ok percentile =>
    match ParseFloat lib p.MarginFraction defaultMarginFraction with
    | .error err => (none, some err)
    | .ok marginFraction =>
      match ParseFloat lib p.MinSampleWeight defaultMinSampleWeight with
      | .error err => (none, some err)
      | .ok minSampleWeight =>
        let c : internalConfig F H :=
          { aggregated := p.Aggregated
            historyLength := Hour * 24 * 7
            sampleInterval := sampleInterval
            histogramOptions := options
            histogramDecayHalfLife := halfLife
            minSampleWeight := minSampleWeight
            marginFraction := marginFraction
            percentile := percentile }
        (some c, none)

/-- The function `makeInternalConfig` (lines 46-138).  The pair is Go's
`(*internalConfig, error)`: `none` is nil. -/
def makeInternalConfig {F H : Type} [OfScientific F] [Add F] (lib : Lib F H) (p : Percentile) :
    Option (internalConfig F H) × Option String :=
  match lib.ParseDuration p.SampleInterval with
  | .error err => (none, some err)
  | .ok sampleInterval =>
    match lib.ParseDuration p.Histogram.HalfLife with
    | .error err => (none, some err)
    | .ok halfLife =>
      if p.Histogram.BucketSizeGrowthRatio.length > 0 ∧
          p.Histogram.FirstBucketSize.length > 0 ∧
          p.Histogram.MaxValue.length > 0 then
        match ParseFloat lib p.Histogram.BucketSizeGrowthRatio 0.0 with
        | .error err => (none, some err)
        | .ok bucketSizeGrowthRatio =>
          match ParseFloat lib p.Histogram.FirstBucketSize 0.0 with
          | .error err => (none, some err)
          | .ok firstBucketSize =>
            match ParseFloat lib p.Histogram.MaxValue 0.0 with
            | .error err => (none, some err)
            | .ok maxValue =>
              match ParseFloat lib p.Histogram.Epsilon 1e-10 with
              | .error err => (none, some err)
              | .ok epsilon =>
                match lib.NewExponentialHistogramOptions maxValue firstBucketSize
                    (1.0 + bucketSizeGrowthRatio) epsilon with
                | .error err => (none, some err)
                | .ok options =>
                  makeInternalConfigTail lib p sampleInterval halfLife (some options)
      else if p.Histogram.BucketSize.length > 0 ∧ p.Histogram.MaxValue.length > 0 then
        match ParseFloat lib p.Histogram.BucketSize 0.0 with
        | .error err => (none, some err)
        | .ok bucketSize =>
          match ParseFloat lib p.Histogram.MaxValue 0.0 with
          | .error err => (none, some err)
          | .ok maxValue =>
            match ParseFloat lib p.Histogram.Epsilon 1e-10 with
            | .error err => (none, some err)
            | .ok epsilon =>
              match lib.NewLinearHistogramOptions maxValue bucketSize epsilon with
              | .error err => (none, some err)
              | .ok options =>
                makeInternalConfigTail lib p sampleInterval halfLife (some options)
      else
        makeInternalConfigTail lib p sampleInterval halfLife (defaultHistogramOptions lib)

/-! ## Collaborators that are not in the sources, as far as the claims need them -/

/-- Modelled from the spec: the argument check of `vpa.NewLinearHistogramOptions` and
`vpa.NewExponentialHistogramOptions`, the constructors of the histogram library, which are
not among the sources.  Section 4.2 names what they reject: a non-positive bucket size,
`maxValue ≤ 0`, `ratio ≤ 1`. -/
def Lib.rejectsInvalid {F H : Type} [OfScientific F] [LE F] (lib : Lib F H) : Prop :=
  (∀ maxValue bucketSize epsilon, maxValue ≤ 0.0 ∨ bucketSize ≤ 0.0 →
    ∃ err, lib.NewLinearHistogramOptions maxValue bucketSize epsilon = .error err) ∧
  (∀ maxValue firstBucketSize ratio epsilon,
    maxValue ≤ 0.0 ∨ firstBucketSize ≤ 0.0 ∨ ratio ≤ 1.0 →
    ∃ err,
      lib.NewExponentialHistogramOptions maxValue firstBucketSize ratio epsilon = .error err)

/-- Modelled from the spec: the effect of `c.UpdateRecommendation`, a method of the
controller that is not among the sources, on the status it is given.  By section 3 the
recommended value is the part of the status owned by the recommender and the conditions
are written by the orchestrator: the value application leaves the conditions as it found
them. -/
def Env.keepsConditions (env : Env) : Prop :=
  ∀ recommendation proposed status,
    (env.UpdateRecommendation recommendation proposed status).1.Conditions = status.Conditions

/-- One pass of the dispatcher: the answers of the collaborators, the clock readings and
the request of that pass. -/
structure Pass where
  env : Env
  clock : Clock
  req : Request

/-- A sequence of reconciliation passes over one world, each pass starting from the world
the previous one left: the results of the passes in order and the final world.  `none`
when a pass panics. -/
def runPasses : List Pass → World → Option (List Result × World)
  | [], w => some ([], w)
  | pass :: rest, w =>
    match Reconcile pass.env pass.clock w pass.req with
    | none => none
    | some o =>
      match runPasses rest o.world with
      | none => none
      | some (results, final) => some (o.result :: results, final)

/-! ## Objects and collaborators used as concrete inputs -/

namespace Sample

/-- A target reference without a namespace. -/
def targetRef : ObjectReference :=
  { Kind := "Deployment", Namespace := "", Name := "web", APIVersion := "apps/v1" }

/-- A Recommendation `prod/web-rec` with the given strategy and last update time, no
conditions, no deletion marker and an empty `targetRef.namespace`. -/
def recommendation (strategyType : String) (period : Option Int) (last : Option Time) :
    Recommendation :=
  { Namespace := "prod", Name := "web-rec", DeletionTimestamp := none,
    Spec := { TargetRef := targetRef, Type_ := "Resource",
              CompletionStrategy :=
                { CompletionStrategyType := strategyType, PeriodSeconds := period } },
    Status := { RecommendedValue := "", Conditions := [], LastUpdateTime := last } }

/-- The instant 2023-11-14T22:13:20Z, in nanoseconds since the epoch. -/
def t0 : Time := 1700000000000000000

/-- A pipeline in which every stage succeeds and every store write succeeds; the value
application writes the proposed payload into the status. -/
def envOk : Env :=
  { GetError := none
    NewRecommender := fun _ => .ok { Offer := .ok { payload := "cpu: 250m" } }
    UpdateRecommendation := fun _ proposed status =>
      ({ status with RecommendedValue := proposed.payload }, none)
    Update := fun _ => none }

/-- Clock readings one second apart, starting at `t`. -/
def clockAt (t : Time) : Clock :=
  { tShould := t, tCondition := t + 1000000000, tUpdate := t + 2000000000 }

/-- The request for `prod/web-rec`. -/
def request : Request := { Namespace := "prod", Name := "web-rec" }

/-- Histogram options as the two constructors of the sample library build them: the
layout and the arguments it was built from. -/
inductive Layout where
  | linear (maxValue bucketSize epsilon : ℚ)
  | exponential (maxValue firstBucketSize ratio epsilon : ℚ)
deriving DecidableEq, Repr

/-- A library over the rationals: two durations and four numbers parse, the constructors
of the histogram options accept every argument. -/
def lib : Lib ℚ Layout :=
  { ParseDuration := fun str =>
      if str = "1m" then .ok Minute
      else if str = "24h" then .ok (24 * Hour)
      else .error "invalid duration"
    ParseFloat64 := fun str =>
      if str = "0.05" then .ok 0.05
      else if str = "1" then .ok 1
      else if str = "2" then .ok 2
      else if str = "100" then .ok 100
      else .error "invalid syntax"
    NewLinearHistogramOptions := fun maxValue bucketSize epsilon =>
      .ok (.linear maxValue bucketSize epsilon)
    NewExponentialHistogramOptions := fun maxValue firstBucketSize ratio epsilon =>
      .ok (.exponential maxValue firstBucketSize ratio epsilon) }

/-- An input that supplies all exponential fields together with the linear fields. -/
def percentileAll : Percentile :=
  { SampleInterval := "1m"
    Histogram := { MaxValue := "100", Epsilon := "", HalfLife := "24h", BucketSize := "2",
                   FirstBucketSize := "1", BucketSizeGrowthRatio := "0.05" }
    MinSampleWeight := "", MarginFraction := "", Percentile := "", Aggregated := true }

/-- An input whose sample interval is missing. -/
def percentileNoInterval : Percentile :=
  { percentileAll with SampleInterval := "" }

/-- An input whose only histogram field is a growth ratio that is no number. -/
def percentileBadGrowth : Percentile :=
  { SampleInterval := "1m"
    Histogram := { MaxValue := "", Epsilon := "", HalfLife := "24h", BucketSize := "",
                   FirstBucketSize := "", BucketSizeGrowthRatio := "abc" }
    MinSampleWeight := "", MarginFraction := "", Percentile := "", Aggregated := true }

/-- An input whose percentile is present and is no number. -/
def percentileBadPercentile : Percentile :=
  { percentileAll with Percentile := "abc" }

/-- An input with empty numeric fields apart from the margin fraction. -/
def percentileDefaults : Percentile :=
  { SampleInterval := "1m"
    Histogram := { MaxValue := "", Epsilon := "", HalfLife := "24h", BucketSize := "",
                   FirstBucketSize := "", BucketSizeGrowthRatio := "" }
    MinSampleWeight := "", MarginFraction := "0.05", Percentile := "", Aggregated := false }

/-- A library over the rationals whose constructors check their arguments: positive
`maxValue`, bucket size and epsilon, and a ratio above one. -/
def libChecked : Lib ℚ Layout :=
  { ParseDuration := lib.ParseDuration
    ParseFloat64 := fun str =>
      if str = "0" then .ok 0
      else if str = "100" then .ok 100
      else .error "invalid syntax"
    NewLinearHistogramOptions := fun maxValue bucketSize epsilon =>
      if maxValue ≤ 0.0 ∨ bucketSize ≤ 0.0 ∨ epsilon ≤ 0.0 then
        .error "maxValue and bucketSize must both be positive"
      else .ok (.linear maxValue bucketSize epsilon)
    NewExponentialHistogramOptions := fun maxValue firstBucketSize ratio epsilon =>
      if maxValue ≤ 0.0 ∨ firstBucketSize ≤ 0.0 ∨ ratio ≤ 1.0 ∨ epsilon ≤ 0.0 then
        .error "maxValue, firstBucketSize and epsilon must be > 0.0, ratio must be > 1.0"
      else .ok (.exponential maxValue firstBucketSize ratio epsilon) }

/-- An input that selects the linear layout with a bucket size of zero. -/
def percentileZeroBucket : Percentile :=
  { SampleInterval := "1m"
    Histogram := { MaxValue := "100", Epsilon := "", HalfLife := "24h", BucketSize := "0",
                   FirstBucketSize := "", BucketSizeGrowthRatio := "" }
    MinSampleWeight := "", MarginFraction := "", Percentile := "", Aggregated := true }

/-- A pipeline in which every stage succeeds and the store rejects every write. -/
def envUpdateFails : Env :=
  { envOk with Update := fun _ => some "the object has been modified" }

/-- A pipeline whose recommender is constructed and whose `Offer` fails; writes succeed. -/
def envOfferFails : Env :=
  { envOk with NewRecommender := fun _ => .ok { Offer := .error "no target found" } }

/-- A Recommendation like `recommendation`, with a deletion marker. -/
def deleted (strategyType : String) (period : Option Int) (last : Option Time) :
    Recommendation :=
  { recommendation strategyType period last with DeletionTimestamp := some t0 }

end Sample

/-! ## Arithmetic of durations -/

theorem wrapInt64_of_range (x : Int) (hlo : minInt64 ≤ x) (hhi : x ≤ maxInt64) :
    wrapInt64 x = x := by
  unfold wrapInt64 minInt64 maxInt64 at *
  norm_num at hlo hhi ⊢
  omega

theorem Duration_mul_seconds (p : Int) (hlo : -9223372036 ≤ p) (hhi : p ≤ 9223372036) :
    Duration.mul p Second = p * 1000000000 := by
  unfold Duration.mul Second
  apply wrapInt64_of_range
  · unfold minInt64; norm_num; omega
  · unfold maxInt64; norm_num; omega

theorem Duration_seconds_mul (p : Int) (hlo : -9223372036 ≤ p) (hhi : p ≤ 9223372036) :
    Duration.mul Second p = p * 1000000000 := by
  unfold Duration.mul
  rw [mul_comm]
  exact Duration_mul_seconds p hlo hhi

/-! ## `ShouldRecommend` -/

theorem ShouldRecommend_notOnce_some (now : Time) (r : Recommendation) (p : Int) (t : Time)
    (hT : r.Spec.CompletionStrategy.CompletionStrategyType ≠ CompletionStrategyOnce)
    (hP : r.Spec.CompletionStrategy.PeriodSeconds = some p)
    (hL : r.Status.LastUpdateTime = some t) :
    ShouldRecommend now r = some (decide (t + Duration.mul p Second ≤ now)) := by
  unfold ShouldRecommend
  simp only [hT, hP, hL, if_false, Time.Before, Time.Add]
  by_cases h : now < t + Duration.mul p Second
  · have h2 : ¬ (t + Duration.mul p Second ≤ now) := not_le.mpr h
    simp [h, h2]
  · have h2 : t + Duration.mul p Second ≤ now := not_lt.mp h
    simp [h, h2]

theorem ShouldRecommend_nil (now : Time) (r : Recommendation)
    (hL : r.Status.LastUpdateTime = none) : ShouldRecommend now r = some true := by
  unfold ShouldRecommend
  simp only [hL]
  split <;> rfl

/-- C1 (as amended): for a Periodical Recommendation whose configured period `p` is a
number of seconds that `time.Duration` can hold (`|p| ≤ 9223372036`), `ShouldRecommend`
returns, and returns true if and only if `status.lastUpdateTime` is nil or
`now ≥ lastUpdateTime + p` seconds; with `p = 300` it returns false at
`lastUpdateTime + 200s` and true at `lastUpdateTime + 301s`. -/
theorem C1_periodical_due_iff (now : Time) (r : Recommendation) (p : Int)
    (hT : r.Spec.CompletionStrategy.CompletionStrategyType = CompletionStrategyPeriodical)
    (hP : r.Spec.CompletionStrategy.PeriodSeconds = some p)
    (hlo : -9223372036 ≤ p) (hhi : p ≤ 9223372036) :
    (∃ b, ShouldRecommend now r = some b) ∧
    (ShouldRecommend now r = some true ↔
      (r.Status.LastUpdateTime = none ∨
        ∃ t, r.Status.LastUpdateTime = some t ∧ t + p * 1000000000 ≤ now)) ∧
    (p = 300 → ∀ t, r.Status.LastUpdateTime = some t →
      (now = t + 200 * 1000000000 → ShouldRecommend now r = some false) ∧
      (now = t + 301 * 1000000000 → ShouldRecommend now r = some true)) := by
  have hne : r.Spec.CompletionStrategy.CompletionStrategyType ≠ CompletionStrategyOnce := by
    rw [hT]; decide
  have hmul := Duration_mul_seconds p hlo hhi
  cases hL : r.Status.LastUpdateTime with
  | none =>
    have h := ShouldRecommend_nil now r hL
    refine ⟨⟨true, h⟩, ⟨fun _ => Or.inl rfl, fun _ => h⟩, ?_⟩
    intro _ t ht
    cases ht
  | some t =>
    have h := ShouldRecommend_notOnce_some now r p t hne hP hL
    rw [hmul] at h
    refine ⟨⟨_, h⟩, ?_, ?_⟩
    · rw [h]
      constructor
      · intro hb
        right
        refine ⟨t, rfl, ?_⟩
        simpa using hb
      · rintro (hn | ⟨t2, ht2, hle⟩)
        · cases hn
        · cases ht2
          simpa using hle
    · intro hp t2 ht2
      cases ht2
      subst hp
      rw [h]
      constructor
      · intro hn
        subst hn
        simp
      · intro hn
        subst hn
        simp

/-- C1, witness: the Periodical object with `periodSeconds = 300` is not due 200 s after
its last update and is due 301 s after it. -/
theorem C1_periodical_due_iff_witness :
    ShouldRecommend (Sample.t0 + 200 * 1000000000)
        (Sample.recommendation CompletionStrategyPeriodical (some 300) (some Sample.t0))
      = some false ∧
    ShouldRecommend (Sample.t0 + 301 * 1000000000)
        (Sample.recommendation CompletionStrategyPeriodical (some 300) (some Sample.t0))
      = some true :=
  ⟨((C1_periodical_due_iff _ _ 300 rfl rfl (by decide) (by decide)).2.2 rfl Sample.t0 rfl).1 rfl,
   ((C1_periodical_due_iff _ _ 300 rfl rfl (by decide) (by decide)).2.2 rfl Sample.t0 rfl).2 rfl⟩

/-- C1, counterexample to the claim as stated: `periodSeconds = 9223372037` is an `int64`,
the object was last updated at `t0` and the current time is one second later, so
`now < lastUpdateTime + periodSeconds`; yet `ShouldRecommend` returns true, because the
period in nanoseconds wraps to a negative `time.Duration`. -/
theorem C1_counterexample_overflow :
    minInt64 ≤ 9223372037 ∧ (9223372037 : Int) ≤ maxInt64 ∧
    (Sample.recommendation CompletionStrategyPeriodical (some 9223372037)
        (some Sample.t0)).Status.LastUpdateTime = some Sample.t0 ∧
    ¬ (Sample.t0 + 9223372037 * 1000000000 ≤ Sample.t0 + 1000000000) ∧
    ShouldRecommend (Sample.t0 + 1000000000)
        (Sample.recommendation CompletionStrategyPeriodical (some 9223372037) (some Sample.t0))
      = some true := by
  refine ⟨by decide, by decide, rfl, by decide, ?_⟩
  decide

/-- C2: for a Once Recommendation, `ShouldRecommend` returns, and returns true if and only
if `status.lastUpdateTime` is nil; the answer does not depend on the current time nor on
`periodSeconds`. -/
theorem C2_once_due_iff (now : Time) (r : Recommendation)
    (hT : r.Spec.CompletionStrategy.CompletionStrategyType = CompletionStrategyOnce) :
    ShouldRecommend now r = some r.Status.LastUpdateTime.isNone ∧
    (ShouldRecommend now r = some true ↔ r.Status.LastUpdateTime = none) ∧
    (r.Status.LastUpdateTime ≠ none → ShouldRecommend now r = some false) ∧
    (∀ (now2 : Time) (period : Option Int),
      ShouldRecommend now2
        { r with Spec := { r.Spec with CompletionStrategy :=
            { r.Spec.CompletionStrategy with PeriodSeconds := period } } }
        = ShouldRecommend now r) := by
  have key : ∀ (n : Time) (x : Recommendation),
      x.Spec.CompletionStrategy.CompletionStrategyType = CompletionStrategyOnce →
      ShouldRecommend n x = some x.Status.LastUpdateTime.isNone := by
    intro n x hx
    unfold ShouldRecommend
    simp only [hx, if_true]
    cases x.Status.LastUpdateTime <;> rfl
  have h := key now r hT
  refine ⟨h, ?_, ?_, ?_⟩
  · rw [h]
    cases r.Status.LastUpdateTime <;> simp
  · intro hne
    rw [h]
    cases hL : r.Status.LastUpdateTime with
    | none => exact absurd hL hne
    | some t => rfl
  · intro now2 period
    rw [h]
    exact key now2 _ hT

/-- C2, witness: a Once object is due before its first update and not due after it,
whatever the clock reads. -/
theorem C2_once_due_iff_witness :
    ShouldRecommend Sample.t0 (Sample.recommendation CompletionStrategyOnce none none)
      = some true ∧
    ShouldRecommend (Sample.t0 + 301 * 1000000000)
        (Sample.recommendation CompletionStrategyOnce (some 300) (some Sample.t0))
      = some false :=
  ⟨(C2_once_due_iff Sample.t0
      (Sample.recommendation CompletionStrategyOnce none none) rfl).1,
   (C2_once_due_iff (Sample.t0 + 301 * 1000000000)
      (Sample.recommendation CompletionStrategyOnce (some 300) (some Sample.t0)) rfl).1⟩

/-! ## `UpdateStatus`, `DoRecommend`: the object in memory -/

theorem UpdateStatus_same (env : Env) (clock : Clock) (w : World) (r : Recommendation)
    (newStatus : RecommendationStatus) (h : r.Status = newStatus) :
    UpdateStatus env clock w r newStatus = (w, r) := by
  unfold UpdateStatus
  simp [h]

theorem UpdateStatus_differs (env : Env) (clock : Clock) (w : World) (r : Recommendation)
    (newStatus : RecommendationStatus) (h : r.Status ≠ newStatus) :
    UpdateStatus env clock w r newStatus =
      (match env.Update
          { r with Status := { newStatus with LastUpdateTime := some clock.tUpdate } } with
        | some err =>
          World.Event
            { w with updates := w.updates ++
                [{ r with Status := { newStatus with LastUpdateTime := some clock.tUpdate } }] }
            { r with Status := { newStatus with LastUpdateTime := some clock.tUpdate } }
            EventTypeWarning "FailedUpdateStatus" err
        | none =>
          { w with
            updates := w.updates ++
              [{ r with Status := { newStatus with LastUpdateTime := some clock.tUpdate } }]
            stored :=
              some { r with Status := { newStatus with LastUpdateTime := some clock.tUpdate } } },
       { r with Status := { newStatus with LastUpdateTime := some clock.tUpdate } }) := by
  unfold UpdateStatus
  simp only [h, not_false_eq_true, if_true]
  cases env.Update { r with Status := { newStatus with LastUpdateTime := some clock.tUpdate } }
    <;> rfl

theorem UpdateStatus_snd (env : Env) (clock : Clock) (w : World) (r : Recommendation)
    (newStatus : RecommendationStatus) :
    (UpdateStatus env clock w r newStatus).2 =
      if r.Status = newStatus then r
      else { r with Status := { newStatus with LastUpdateTime := some clock.tUpdate } } := by
  by_cases h : r.Status = newStatus
  · rw [UpdateStatus_same env clock w r newStatus h, if_pos h]
  · rw [UpdateStatus_differs env clock w r newStatus h, if_neg h]

theorem UpdateStatus_snd_Spec (env : Env) (clock : Clock) (w : World) (r : Recommendation)
    (newStatus : RecommendationStatus) :
    (UpdateStatus env clock w r newStatus).2.Spec = r.Spec := by
  rw [UpdateStatus_snd]
  split <;> rfl

theorem DoRecommend_snd_Spec (env : Env) (clock : Clock) (w : World) (r : Recommendation) :
    (DoRecommend env clock w r).2.Spec = r.Spec := by
  unfold DoRecommend
  exact UpdateStatus_snd_Spec _ _ _ _ _

theorem defaultTargetRefNamespace_strategy (r : Recommendation) :
    (defaultTargetRefNamespace r).Spec.CompletionStrategy = r.Spec.CompletionStrategy := by
  unfold defaultTargetRefNamespace
  split <;> rfl

/-! ## `Reconcile` on a due object -/

theorem Reconcile_due (env : Env) (clock : Clock) (w : World) (req : Request)
    (r : Recommendation) (hGet : ClientGet env w req = .ok r)
    (hDel : r.DeletionTimestamp = none)
    (hDue : ShouldRecommend clock.tShould r = some true) :
    Reconcile env clock w req = some
      { result :=
          if r.Spec.CompletionStrategy.CompletionStrategyType = CompletionStrategyPeriodical then
            match r.Spec.CompletionStrategy.PeriodSeconds with
            | some p => { Requeue := false, RequeueAfter := Duration.mul Second p }
            | none => Result.empty
          else Result.empty
        err := none
        world := (DoRecommend env clock w (defaultTargetRefNamespace r)).1
        recommendation := some (DoRecommend env clock w (defaultTargetRefNamespace r)).2 } := by
  unfold Reconcile
  simp only [hGet, hDel, hDue, DoRecommend_snd_Spec, defaultTargetRefNamespace_strategy]
  by_cases hT : r.Spec.CompletionStrategy.CompletionStrategyType = CompletionStrategyPeriodical
  · simp only [hT, if_true]
    cases r.Spec.CompletionStrategy.PeriodSeconds <;> rfl
  · simp only [hT, if_false]

/-- C3 (as amended): for a Recommendation that is loaded, carries no deletion marker and is
due, whatever the pipeline and the store answer, `Reconcile` returns with a nil error; for
a Periodical strategy with configured period `p` the result is
`ctrl.Result{RequeueAfter: time.Second * time.Duration(p)}`, which for `1 ≤ p ≤ 9223372036`
requests a run after exactly `p` seconds; for any other strategy type and for a Periodical
strategy without a period the result is `ctrl.Result{}`, which requests nothing. -/
theorem C3_requeue_after_period (env : Env) (clock : Clock) (w : World) (req : Request)
    (r : Recommendation) (hGet : ClientGet env w req = .ok r)
    (hDel : r.DeletionTimestamp = none)
    (hDue : ShouldRecommend clock.tShould r = some true) :
    ∃ o, Reconcile env clock w req = some o ∧ o.err = none ∧
      (∀ p, r.Spec.CompletionStrategy.CompletionStrategyType = CompletionStrategyPeriodical →
        r.Spec.CompletionStrategy.PeriodSeconds = some p →
        o.result = { Requeue := false, RequeueAfter := Duration.mul Second p } ∧
        (1 ≤ p → p ≤ 9223372036 →
          o.result.RequeueAfter = p * 1000000000 ∧ o.result.requeues)) ∧
      (r.Spec.CompletionStrategy.CompletionStrategyType ≠ CompletionStrategyPeriodical ∨
        r.Spec.CompletionStrategy.PeriodSeconds = none →
        o.result = Result.empty ∧ ¬ o.result.requeues) := by
  refine ⟨_, Reconcile_due env clock w req r hGet hDel hDue, rfl, ?_, ?_⟩
  · intro p hT hP
    simp only [hT, hP, if_true, true_and]
    intro h1 h2
    have hm := Duration_seconds_mul p (by omega) h2
    have hpos : (0 : Int) < p * 1000000000 := by omega
    refine ⟨hm, Or.inr ?_⟩
    show (0 : Int) < Duration.mul Second p
    rw [hm]
    exact hpos
  · have hempty : ¬ Result.empty.requeues := by decide
    rintro (hT | hP)
    · rw [if_neg hT]
      exact ⟨rfl, hempty⟩
    · rw [hP]
      split <;> exact ⟨rfl, hempty⟩

/-- C3, witness: the Periodical object with `periodSeconds = 300` and no prior status is
loaded and due, and the pass asks for a run after 300 seconds. -/
theorem C3_requeue_after_period_witness :
    ∃ o, Reconcile Sample.envOk (Sample.clockAt Sample.t0)
        (World.init (some (Sample.recommendation CompletionStrategyPeriodical (some 300) none)))
        Sample.request = some o ∧
      o.err = none ∧ o.result.RequeueAfter = 300 * 1000000000 ∧ o.result.requeues := by
  obtain ⟨o, ho, herr, hper, _⟩ :=
    C3_requeue_after_period Sample.envOk (Sample.clockAt Sample.t0)
      (World.init (some (Sample.recommendation CompletionStrategyPeriodical (some 300) none)))
      Sample.request (Sample.recommendation CompletionStrategyPeriodical (some 300) none)
      rfl rfl (by decide)
  have h := (hper 300 rfl rfl).2 (by decide) (by decide)
  exact ⟨o, ho, herr, h.1, h.2⟩

/-- C3, counterexample to the claim as stated: the object is loaded, has no deletion
marker, is due, and its strategy is Periodical with the configured period 0; the result of
`Reconcile` is `ctrl.Result{}`, no further action, and requests no run. -/
theorem C3_counterexample_zero_period :
    (Sample.recommendation CompletionStrategyPeriodical (some 0)
        none).Spec.CompletionStrategy.PeriodSeconds = some 0 ∧
    ShouldRecommend (Sample.clockAt Sample.t0).tShould
        (Sample.recommendation CompletionStrategyPeriodical (some 0) none) = some true ∧
    (Reconcile Sample.envOk (Sample.clockAt Sample.t0)
        (World.init (some (Sample.recommendation CompletionStrategyPeriodical (some 0) none)))
        Sample.request).map (fun o => (o.result, o.err)) = some (Result.empty, none) ∧
    ¬ Result.empty.requeues := by
  refine ⟨rfl, by decide, ?_, by decide⟩
  rw [Reconcile_due Sample.envOk (Sample.clockAt Sample.t0)
    (World.init (some (Sample.recommendation CompletionStrategyPeriodical (some 0) none)))
    Sample.request
    (Sample.recommendation CompletionStrategyPeriodical (some 0) none) rfl rfl
    (by decide)]
  decide

/-- C4: `UpdateStatus` with a status equal to the current one issues no write and leaves
the world and the object, `status.lastUpdateTime` included, as they are; with a status that
differs, the status of the object becomes the new status with `lastUpdateTime` set to the
clock reading, nothing else of the object changes, and exactly one update is issued, which
carries the object with that stamped status. -/
theorem C4_UpdateStatus_write_iff_differs (env : Env) (clock : Clock) (w : World)
    (r : Recommendation) (newStatus : RecommendationStatus) :
    (newStatus = r.Status → UpdateStatus env clock w r newStatus = (w, r)) ∧
    (newStatus ≠ r.Status →
      (UpdateStatus env clock w r newStatus).2 =
        { r with Status := { newStatus with LastUpdateTime := some clock.tUpdate } } ∧
      (UpdateStatus env clock w r newStatus).1.updates = w.updates ++
        [{ r with Status := { newStatus with LastUpdateTime := some clock.tUpdate } }] ∧
      (UpdateStatus env clock w r newStatus).1.calls = w.calls) := by
  constructor
  · intro h
    exact UpdateStatus_same env clock w r newStatus h.symm
  · intro h
    have hne : r.Status ≠ newStatus := fun e => h e.symm
    rw [UpdateStatus_differs env clock w r newStatus hne]
    cases env.Update { r with Status := { newStatus with LastUpdateTime := some clock.tUpdate } }
      <;> exact ⟨rfl, rfl, rfl⟩

/-! ## `setReadyCondition` -/

theorem setReadyConditionList_split (now : Time) (conditionStatus reason message : String)
    (pre : List Condition) (c : Condition) (post : List Condition)
    (hpre : ∀ x ∈ pre, x.Type_ ≠ "Ready") (hc : c.Type_ = "Ready") :
    setReadyConditionList now conditionStatus reason message (pre ++ c :: post) =
      pre ++ ConditionSet.overwrite now conditionStatus reason message c :: post := by
  induction pre with
  | nil =>
    simp only [List.nil_append, setReadyConditionList]
    rw [if_pos hc]
    rfl
  | cons a rest ih =>
    have ha : a.Type_ ≠ "Ready" := hpre a (List.mem_cons_self a rest)
    have hrest : ∀ x ∈ rest, x.Type_ ≠ "Ready" :=
      fun x hx => hpre x (List.mem_cons_of_mem a hx)
    simp only [List.cons_append, setReadyConditionList]
    rw [if_neg ha]
    exact congrArg (List.cons a) (ih hrest)

theorem setReadyConditionList_absent (now : Time) (conditionStatus reason message : String)
    (l : List Condition) (habs : ∀ x ∈ l, x.Type_ ≠ "Ready") :
    setReadyConditionList now conditionStatus reason message l =
      l ++ [ConditionSet.fresh now "Ready" conditionStatus reason message] := by
  induction l with
  | nil => rfl
  | cons a rest ih =>
    have ha : a.Type_ ≠ "Ready" := habs a (List.mem_cons_self a rest)
    have hrest : ∀ x ∈ rest, x.Type_ ≠ "Ready" :=
      fun x hx => habs x (List.mem_cons_of_mem a hx)
    simp only [List.cons_append, setReadyConditionList]
    rw [if_neg ha]
    exact congrArg (List.cons a) (ih hrest)

theorem setReadyConditionList_eq_upsert (now : Time) (conditionStatus reason message : String)
    (l : List Condition) :
    setReadyConditionList now conditionStatus reason message l =
      ConditionSet.upsert now "Ready" conditionStatus reason message l := by
  induction l with
  | nil => rfl
  | cons a rest ih =>
    unfold ConditionSet.upsert at ih ⊢
    rw [List.findIdx?_cons]
    by_cases ha : a.Type_ = "Ready"
    · simp only [setReadyConditionList]
      rw [if_pos ha, if_pos (by simpa using ha)]
      simp only [List.modify_zero_cons]
      rfl
    · simp only [setReadyConditionList]
      rw [if_neg ha, if_neg (by simpa using ha), ih]
      simp only [zero_add, List.findIdx?_succ]
      cases List.findIdx? (fun c => decide (c.Type_ = "Ready")) rest with
      | none => rfl
      | some i => simp only [Option.map_some', List.modify_succ_cons]

theorem setReadyConditionList_length_present (now : Time)
    (conditionStatus reason message : String) (l : List Condition)
    (h : ∃ x ∈ l, x.Type_ = "Ready") :
    (setReadyConditionList now conditionStatus reason message l).length = l.length := by
  induction l with
  | nil =>
    obtain ⟨x, hx, _⟩ := h
    cases hx
  | cons a rest ih =>
    by_cases ha : a.Type_ = "Ready"
    · simp only [setReadyConditionList]
      rw [if_pos ha]
      rfl
    · have hrest : ∃ x ∈ rest, x.Type_ = "Ready" := by
        obtain ⟨x, hx, hxr⟩ := h
        rcases List.mem_cons.mp hx with rfl | hmem
        · exact absurd hxr ha
        · exact ⟨x, hmem, hxr⟩
      simp only [setReadyConditionList]
      rw [if_neg ha]
      simp only [List.length_cons, ih hrest]

theorem readyCondition_setReadyCondition (now : Time) (status : RecommendationStatus)
    (conditionStatus reason message : String) :
    ∃ c, readyCondition (setReadyCondition now status conditionStatus reason message) = some c ∧
      c.Type_ = "Ready" ∧ c.Status = conditionStatus ∧ c.Reason = reason ∧
      c.Message = message ∧ c.LastTransitionTime = now := by
  unfold readyCondition setReadyCondition
  simp only
  induction status.Conditions with
  | nil => exact ⟨_, rfl, rfl, rfl, rfl, rfl, rfl⟩
  | cons a rest ih =>
    by_cases ha : a.Type_ = "Ready"
    · refine ⟨ConditionSet.overwrite now conditionStatus reason message a, ?_, ha, rfl, rfl,
        rfl, rfl⟩
      simp only [setReadyConditionList]
      rw [if_pos ha, List.find?_cons]
      have hd : decide ((ConditionSet.overwrite now conditionStatus reason message a).Type_
          = "Ready") = true := by simpa [ConditionSet.overwrite] using ha
      show (match decide ((ConditionSet.overwrite now conditionStatus reason message a).Type_
          = "Ready") with
        | true => some (ConditionSet.overwrite now conditionStatus reason message a)
        | false => _) = _
      rw [hd]
    · obtain ⟨c, hc, hrest⟩ := ih
      refine ⟨c, ?_, hrest⟩
      simp only [setReadyConditionList]
      rw [if_neg ha, List.find?_cons]
      have hd : decide (a.Type_ = "Ready") = false := by simpa using ha
      rw [hd]
      exact hc

/-- C8: `setReadyCondition` is the reference upsert for the type Ready and writes nothing
else of the status.  If a condition of type Ready exists, the first one has status, reason
and message overwritten and `lastTransitionTime` set to the clock reading (whatever its
status was), every entry before and after it is as it was, and the length is unchanged; if
none exists, one new Ready entry with the given status, reason, message and the reading is
appended after the existing entries, which are as they were. -/
theorem C8_setReadyCondition_is_upsert (now : Time) (status : RecommendationStatus)
    (conditionStatus reason message : String) :
    (setReadyCondition now status conditionStatus reason message).Conditions =
      ConditionSet.upsert now "Ready" conditionStatus reason message status.Conditions ∧
    (setReadyCondition now status conditionStatus reason message).LastUpdateTime =
      status.LastUpdateTime ∧
    (setReadyCondition now status conditionStatus reason message).RecommendedValue =
      status.RecommendedValue ∧
    (∀ (pre : List Condition) (c : Condition) (post : List Condition),
      status.Conditions = pre ++ c :: post → (∀ x ∈ pre, x.Type_ ≠ "Ready") →
      c.Type_ = "Ready" →
      (setReadyCondition now status conditionStatus reason message).Conditions =
        pre ++ { Type_ := "Ready", Status := conditionStatus,
                 ObservedGeneration := c.ObservedGeneration, LastTransitionTime := now,
                 Reason := reason, Message := message } :: post) ∧
    ((∃ x ∈ status.Conditions, x.Type_ = "Ready") →
      (setReadyCondition now status conditionStatus reason message).Conditions.length =
        status.Conditions.length) ∧
    ((∀ x ∈ status.Conditions, x.Type_ ≠ "Ready") →
      (setReadyCondition now status conditionStatus reason message).Conditions =
        status.Conditions ++
          [{ Type_ := "Ready", Status := conditionStatus, ObservedGeneration := 0,
             LastTransitionTime := now, Reason := reason, Message := message }]) := by
  refine ⟨setReadyConditionList_eq_upsert now conditionStatus reason message status.Conditions,
    rfl, rfl, ?_, ?_, ?_⟩
  · intro pre c post hsplit hpre hc
    show setReadyConditionList now conditionStatus reason message status.Conditions = _
    rw [hsplit, setReadyConditionList_split now conditionStatus reason message pre c post hpre hc]
    unfold ConditionSet.overwrite
    rw [← hc]
  · intro h
    exact setReadyConditionList_length_present now conditionStatus reason message _ h
  · intro habs
    exact setReadyConditionList_absent now conditionStatus reason message _ habs

/-! ## The stages of `DoRecommend` -/

theorem DoRecommendStages_create_fails (env : Env) (clock : Clock) (w : World)
    (r : Recommendation) (e : String) (h : env.NewRecommender r = .error e) :
    DoRecommendStages env clock w r =
      (World.Event (w.call (.NewRecommender r)) r EventTypeWarning "FailedCreateRecommender" e,
       setReadyCondition clock.tCondition r.Status ConditionFalse "FailedCreateRecommender"
         ("Failed to create recommender, Recommendation " ++ KObj r ++ " error " ++ e)) := by
  unfold DoRecommendStages
  simp only [h]

theorem DoRecommendStages_offer_fails (env : Env) (clock : Clock) (w : World)
    (r : Recommendation) (recommender : Recommender) (e : String)
    (h : env.NewRecommender r = .ok recommender) (ho : recommender.Offer = .error e) :
    DoRecommendStages env clock w r =
      (World.Event ((w.call (.NewRecommender r)).call .Offer) r EventTypeWarning
         "FailedOfferRecommendation" e,
       setReadyCondition clock.tCondition r.Status ConditionFalse "FailedOfferRecommend"
         ("Failed to offer recommend, Recommendation " ++ KObj r ++ ": " ++ e)) := by
  unfold DoRecommendStages
  simp only [h, ho]

theorem DoRecommendStages_apply_fails (env : Env) (clock : Clock) (w : World)
    (r : Recommendation) (recommender : Recommender) (proposed : ProposedRecommendation)
    (st : RecommendationStatus) (e : String)
    (h : env.NewRecommender r = .ok recommender) (ho : recommender.Offer = .ok proposed)
    (hu : env.UpdateRecommendation r proposed r.Status = (st, some e)) :
    DoRecommendStages env clock w r =
      (World.Event
         (((w.call (.NewRecommender r)).call .Offer).call
           (.UpdateRecommendation r proposed r.Status))
         r EventTypeWarning "FailedUpdateRecommendationValue" e,
       setReadyCondition clock.tCondition st ConditionFalse "FailedUpdateRecommendationValue"
         ("Failed to update recommendation value, Recommendation " ++ KObj r ++ ": " ++ e)) := by
  unfold DoRecommendStages
  simp only [h, ho, hu]

theorem DoRecommendStages_success (env : Env) (clock : Clock) (w : World)
    (r : Recommendation) (recommender : Recommender) (proposed : ProposedRecommendation)
    (st : RecommendationStatus)
    (h : env.NewRecommender r = .ok recommender) (ho : recommender.Offer = .ok proposed)
    (hu : env.UpdateRecommendation r proposed r.Status = (st, none)) :
    DoRecommendStages env clock w r =
      (((w.call (.NewRecommender r)).call .Offer).call
         (.UpdateRecommendation r proposed r.Status),
       setReadyCondition clock.tCondition st ConditionTrue "RecommendationReady"
         "Recommendation is ready") := by
  unfold DoRecommendStages
  simp only [h, ho, hu]

theorem DoRecommendStages_store (env : Env) (clock : Clock) (w : World) (r : Recommendation) :
    (DoRecommendStages env clock w r).1.updates = w.updates ∧
    (DoRecommendStages env clock w r).1.stored = w.stored := by
  cases h : env.NewRecommender r with
  | error e =>
    rw [DoRecommendStages_create_fails env clock w r e h]
    exact ⟨rfl, rfl⟩
  | ok recommender =>
    cases ho : recommender.Offer with
    | error e =>
      rw [DoRecommendStages_offer_fails env clock w r recommender e h ho]
      exact ⟨rfl, rfl⟩
    | ok proposed =>
      rcases hu : env.UpdateRecommendation r proposed r.Status with ⟨st, _ | e⟩
      · rw [DoRecommendStages_success env clock w r recommender proposed st h ho hu]
        exact ⟨rfl, rfl⟩
      · rw [DoRecommendStages_apply_fails env clock w r recommender proposed st e h ho hu]
        exact ⟨rfl, rfl⟩

theorem DoRecommendStages_calls (env : Env) (clock : Clock) (w : World) (r : Recommendation) :
    ∃ cs, (DoRecommendStages env clock w r).1.calls = w.calls ++ .NewRecommender r :: cs ∧
      ∀ c ∈ cs, c = .Offer ∨ ∃ proposed st, c = .UpdateRecommendation r proposed st := by
  cases h : env.NewRecommender r with
  | error e =>
    rw [DoRecommendStages_create_fails env clock w r e h]
    exact ⟨[], rfl, fun c hc => absurd hc (List.not_mem_nil c)⟩
  | ok recommender =>
    cases ho : recommender.Offer with
    | error e =>
      rw [DoRecommendStages_offer_fails env clock w r recommender e h ho]
      refine ⟨[.Offer], ?_, ?_⟩
      · simp [World.Event, World.call]
      · intro c hc
        left
        simpa using hc
    | ok proposed =>
      have hcalls : ((w.call (.NewRecommender r)).call .Offer).call
          (.UpdateRecommendation r proposed r.Status) =
          { w with calls := w.calls ++ PipelineCall.NewRecommender r ::
              [.Offer, .UpdateRecommendation r proposed r.Status] } := by
        simp [World.call]
      have hmem : ∀ c ∈ [PipelineCall.Offer, .UpdateRecommendation r proposed r.Status],
          c = .Offer ∨ ∃ proposed st, c = .UpdateRecommendation r proposed st := by
        intro c hc
        rcases List.mem_cons.mp hc with rfl | hc2
        · exact Or.inl rfl
        · right
          exact ⟨proposed, r.Status, by simpa using hc2⟩
      rcases hu : env.UpdateRecommendation r proposed r.Status with ⟨st, _ | e⟩
      · rw [DoRecommendStages_success env clock w r recommender proposed st h ho hu, hcalls]
        exact ⟨_, rfl, hmem⟩
      · rw [DoRecommendStages_apply_fails env clock w r recommender proposed st e h ho hu]
        refine ⟨_, ?_, hmem⟩
        simp only [World.Event, hcalls]

/-- C5: `DoRecommend` submits to `UpdateStatus` the status its stages produce, and the
stages run in order and stop at the first failure: a failed construction calls nothing
else and submits Ready = False with reason `FailedCreateRecommender`; a failed `Offer`
after a successful construction calls no value application and submits Ready = False,
`FailedOfferRecommend`; a failed value application after both submits Ready = False,
`FailedUpdateRecommendationValue`; three successes submit Ready = True.  The three failure
reasons are pairwise distinct. -/
theorem C5_DoRecommend_stage_reasons (env : Env) (clock : Clock) (w : World)
    (r : Recommendation) :
    DoRecommend env clock w r =
      UpdateStatus env clock (DoRecommendStages env clock w r).1 r
        (DoRecommendStages env clock w r).2 ∧
    (∀ e, env.NewRecommender r = .error e →
      (DoRecommendStages env clock w r).1.calls = w.calls ++ [.NewRecommender r] ∧
      ∃ c, readyCondition (DoRecommendStages env clock w r).2 = some c ∧
        c.Status = ConditionFalse ∧ c.Reason = "FailedCreateRecommender") ∧
    (∀ recommender e, env.NewRecommender r = .ok recommender →
      recommender.Offer = .error e →
      (DoRecommendStages env clock w r).1.calls = w.calls ++ [.NewRecommender r, .Offer] ∧
      ∃ c, readyCondition (DoRecommendStages env clock w r).2 = some c ∧
        c.Status = ConditionFalse ∧ c.Reason = "FailedOfferRecommend") ∧
    (∀ recommender proposed st e, env.NewRecommender r = .ok recommender →
      recommender.Offer = .ok proposed →
      env.UpdateRecommendation r proposed r.Status = (st, some e) →
      (DoRecommendStages env clock w r).1.calls =
        w.calls ++ [.NewRecommender r, .Offer, .UpdateRecommendation r proposed r.Status] ∧
      ∃ c, readyCondition (DoRecommendStages env clock w r).2 = some c ∧
        c.Status = ConditionFalse ∧ c.Reason = "FailedUpdateRecommendationValue") ∧
    (∀ recommender proposed st, env.NewRecommender r = .ok recommender →
      recommender.Offer = .ok proposed →
      env.UpdateRecommendation r proposed r.Status = (st, none) →
      (DoRecommendStages env clock w r).1.calls =
        w.calls ++ [.NewRecommender r, .Offer, .UpdateRecommendation r proposed r.Status] ∧
      ∃ c, readyCondition (DoRecommendStages env clock w r).2 = some c ∧
        c.Status = ConditionTrue) ∧
    ("FailedCreateRecommender" ≠ "FailedOfferRecommend" ∧
      "FailedCreateRecommender" ≠ "FailedUpdateRecommendationValue" ∧
      "FailedOfferRecommend" ≠ "FailedUpdateRecommendationValue") := by
  refine ⟨rfl, ?_, ?_, ?_, ?_, by decide, by decide, by decide⟩
  · intro e h
    rw [DoRecommendStages_create_fails env clock w r e h]
    obtain ⟨c, hc, _, hs, hr, _⟩ := readyCondition_setReadyCondition clock.tCondition r.Status
      ConditionFalse "FailedCreateRecommender"
      ("Failed to create recommender, Recommendation " ++ KObj r ++ " error " ++ e)
    exact ⟨rfl, c, hc, hs, hr⟩
  · intro recommender e h ho
    rw [DoRecommendStages_offer_fails env clock w r recommender e h ho]
    obtain ⟨c, hc, _, hs, hr, _⟩ := readyCondition_setReadyCondition clock.tCondition r.Status
      ConditionFalse "FailedOfferRecommend"
      ("Failed to offer recommend, Recommendation " ++ KObj r ++ ": " ++ e)
    refine ⟨?_, c, hc, hs, hr⟩
    simp [World.Event, World.call]
  · intro recommender proposed st e h ho hu
    rw [DoRecommendStages_apply_fails env clock w r recommender proposed st e h ho hu]
    obtain ⟨c, hc, _, hs, hr, _⟩ := readyCondition_setReadyCondition clock.tCondition st
      ConditionFalse "FailedUpdateRecommendationValue"
      ("Failed to update recommendation value, Recommendation " ++ KObj r ++ ": " ++ e)
    refine ⟨?_, c, hc, hs, hr⟩
    simp [World.Event, World.call]
  · intro recommender proposed st h ho hu
    rw [DoRecommendStages_success env clock w r recommender proposed st h ho hu]
    obtain ⟨c, hc, _, hs, _⟩ := readyCondition_setReadyCondition clock.tCondition st
      ConditionTrue "RecommendationReady" "Recommendation is ready"
    refine ⟨?_, c, hc, hs⟩
    simp [World.call]

/-- C6, the failing input evaluated: a Periodical Recommendation without `periodSeconds`
and with no prior status is reconciled once (the pass returns, requests nothing and
stores the object with `lastUpdateTime` set); the next pass over the stored object does
not return: `ShouldRecommend` dereferences the nil `PeriodSeconds` and panics, and so
does `Reconcile`. -/
theorem C6_panic_periodical_without_period :
    (Reconcile Sample.envOk (Sample.clockAt Sample.t0)
        (World.init (some (Sample.recommendation CompletionStrategyPeriodical none none)))
        Sample.request).map
        (fun o => (o.result, o.err, o.world.stored.map (fun x => x.Status.LastUpdateTime)))
      = some (Result.empty, none, some (some (Sample.t0 + 2000000000))) ∧
    (Reconcile Sample.envOk (Sample.clockAt Sample.t0)
        (World.init (some (Sample.recommendation CompletionStrategyPeriodical none none)))
        Sample.request).bind
        (fun o => Reconcile Sample.envOk (Sample.clockAt (Sample.t0 + 10000000000)) o.world
          Sample.request)
      = none ∧
    ShouldRecommend (Sample.t0 + 10000000000)
        (Sample.recommendation CompletionStrategyPeriodical none
          (some (Sample.t0 + 2000000000))) = none ∧
    Reconcile Sample.envOk (Sample.clockAt (Sample.t0 + 10000000000))
        (World.init (some (Sample.recommendation CompletionStrategyPeriodical none
          (some (Sample.t0 + 2000000000)))))
        Sample.request = none := by
  refine ⟨by decide, by decide, by decide, by decide⟩

/-! ## The defaulting of `targetRef.namespace` -/

theorem defaultTargetRefNamespace_eq (r : Recommendation) :
    defaultTargetRefNamespace r =
      { r with Spec := { r.Spec with TargetRef := { r.Spec.TargetRef with
          Namespace := if r.Spec.TargetRef.Namespace = "" then r.Namespace
            else r.Spec.TargetRef.Namespace } } } := by
  unfold defaultTargetRefNamespace
  by_cases h : r.Spec.TargetRef.Namespace = ""
  · rw [if_pos h, if_pos h]
  · rw [if_neg h, if_neg h]

theorem UpdateStatus_log (env : Env) (clock : Clock) (w : World) (r : Recommendation)
    (newStatus : RecommendationStatus) :
    (UpdateStatus env clock w r newStatus).1.calls = w.calls ∧
    (UpdateStatus env clock w r newStatus).1.updates = w.updates ++
      (if r.Status = newStatus then []
       else [{ r with Status := { newStatus with LastUpdateTime := some clock.tUpdate } }]) := by
  by_cases h : r.Status = newStatus
  · rw [UpdateStatus_same env clock w r newStatus h, if_pos h]
    exact ⟨rfl, (List.append_nil _).symm⟩
  · rw [UpdateStatus_differs env clock w r newStatus h, if_neg h]
    cases env.Update { r with Status := { newStatus with LastUpdateTime := some clock.tUpdate } }
      <;> exact ⟨rfl, rfl⟩

theorem DoRecommend_log (env : Env) (clock : Clock) (w : World) (r : Recommendation) :
    (∃ cs, (DoRecommend env clock w r).1.calls = w.calls ++ .NewRecommender r :: cs ∧
      ∀ c ∈ cs, c = .Offer ∨ ∃ proposed st, c = .UpdateRecommendation r proposed st) ∧
    (∃ us, (DoRecommend env clock w r).1.updates = w.updates ++ us ∧ us.length ≤ 1 ∧
      ∀ x ∈ us, x.Spec = r.Spec ∧ x.Namespace = r.Namespace ∧ x.Name = r.Name ∧
        x.Status.LastUpdateTime = some clock.tUpdate) := by
  unfold DoRecommend
  have hlog := UpdateStatus_log env clock (DoRecommendStages env clock w r).1 r
    (DoRecommendStages env clock w r).2
  have hstore := DoRecommendStages_store env clock w r
  constructor
  · rw [hlog.1]
    exact DoRecommendStages_calls env clock w r
  · rw [hlog.2, hstore.1]
    refine ⟨_, rfl, ?_, ?_⟩
    · split <;> simp
    · intro x hx
      split at hx
      · exact absurd hx (List.not_mem_nil x)
      · rw [List.mem_singleton.mp hx]
        exact ⟨rfl, rfl, rfl, rfl⟩

/-- C7 (as amended): in a pass over a loaded, undeleted and due Recommendation the pipeline
is run on the object whose `targetRef.namespace` is the object's own namespace when the
stored one is empty, and the stored one when it is not; nothing else of the object is
changed by the defaulting.  The pass issues at most one store update, and the object it
writes carries the spec of that defaulted object (so an empty `targetRef.namespace` is
written back as the object's namespace), the object's name and namespace, and the stamped
status. -/
theorem C7_targetRef_namespace_defaulted (env : Env) (clock : Clock) (w : World)
    (req : Request) (r d : Recommendation) (hGet : ClientGet env w req = .ok r)
    (hDel : r.DeletionTimestamp = none)
    (hDue : ShouldRecommend clock.tShould r = some true)
    (hd : d = { r with Spec := { r.Spec with TargetRef := { r.Spec.TargetRef with
          Namespace := if r.Spec.TargetRef.Namespace = "" then r.Namespace
            else r.Spec.TargetRef.Namespace } } }) :
    (r.Spec.TargetRef.Namespace = "" → d.Spec.TargetRef.Namespace = r.Namespace) ∧
    (r.Spec.TargetRef.Namespace ≠ "" → d = r) ∧
    ∃ o, Reconcile env clock w req = some o ∧
      (∃ cs, o.world.calls = w.calls ++ .NewRecommender d :: cs ∧
        ∀ c ∈ cs, c = .Offer ∨ ∃ proposed st, c = .UpdateRecommendation d proposed st) ∧
      (∃ us, o.world.updates = w.updates ++ us ∧ us.length ≤ 1 ∧
        ∀ x ∈ us, x.Spec = d.Spec ∧ x.Namespace = r.Namespace ∧ x.Name = r.Name ∧
          x.Status.LastUpdateTime = some clock.tUpdate) := by
  have hdef : defaultTargetRefNamespace r = d := by
    rw [hd]
    exact defaultTargetRefNamespace_eq r
  refine ⟨?_, ?_, _, Reconcile_due env clock w req r hGet hDel hDue, ?_⟩
  · intro h
    rw [hd]
    simp only [h, if_true]
  · intro h
    rw [hd]
    simp only [h, if_false]
  · rw [hdef]
    have hlog := DoRecommend_log env clock w d
    have hns : d.Namespace = r.Namespace := by rw [hd]
    have hname : d.Name = r.Name := by rw [hd]
    rw [← hns, ← hname]
    exact hlog

/-- C7, witness: the Periodical object `prod/web-rec` with an empty `targetRef.namespace`
and no prior status; the recommender is constructed on the object with
`targetRef.namespace = "prod"`. -/
theorem C7_targetRef_namespace_defaulted_witness :
    ∃ o, Reconcile Sample.envOk (Sample.clockAt Sample.t0)
        (World.init (some (Sample.recommendation CompletionStrategyPeriodical (some 300) none)))
        Sample.request = some o ∧
      ∃ d cs, d.Spec.TargetRef.Namespace = "prod" ∧
        o.world.calls = PipelineCall.NewRecommender d :: cs := by
  obtain ⟨h1, _, o, ho, ⟨cs, hcs, _⟩, _⟩ :=
    C7_targetRef_namespace_defaulted Sample.envOk (Sample.clockAt Sample.t0)
      (World.init (some (Sample.recommendation CompletionStrategyPeriodical (some 300) none)))
      Sample.request (Sample.recommendation CompletionStrategyPeriodical (some 300) none) _
      rfl rfl (by decide) rfl
  exact ⟨o, ho, _, cs, h1 rfl, hcs⟩

/-- C7, counterexample to the claim as stated: the loaded object has an empty
`targetRef.namespace`; the pass issues one store update, and the object it writes has
`targetRef.namespace = "prod"`, so its spec is not the spec of the loaded object; the
same object ends up in the store. -/
theorem C7_counterexample_namespace_persisted :
    (Sample.recommendation CompletionStrategyPeriodical (some 300)
        none).Spec.TargetRef.Namespace = "" ∧
    (Reconcile Sample.envOk (Sample.clockAt Sample.t0)
        (World.init (some (Sample.recommendation CompletionStrategyPeriodical (some 300) none)))
        Sample.request).map
        (fun o => o.world.updates.map (fun x => (x.Spec.TargetRef.Namespace,
          decide (x.Spec =
            (Sample.recommendation CompletionStrategyPeriodical (some 300) none).Spec))))
      = some [("prod", false)] ∧
    (Reconcile Sample.envOk (Sample.clockAt Sample.t0)
        (World.init (some (Sample.recommendation CompletionStrategyPeriodical (some 300) none)))
        Sample.request).map
        (fun o => o.world.stored.map (fun x => x.Spec.TargetRef.Namespace))
      = some (some "prod") := by
  refine ⟨rfl, by decide, by decide⟩

/-! ## `makeInternalConfig` -/

theorem Except_cases {ε α : Type} (x : Except ε α) :
    (∃ e, x = .error e) ∨ (∃ a, x = .ok a) := by
  cases x with
  | error e => exact Or.inl ⟨e, rfl⟩
  | ok a => exact Or.inr ⟨a, rfl⟩

theorem makeInternalConfigTail_ok {F H : Type} [OfScientific F] (lib : Lib F H) (p : Percentile)
    (sampleInterval halfLife : Duration) (options : Option H)
    (percentile marginFraction minSampleWeight : F)
    (hP : ParseFloat lib p.Percentile defaultPercentile = .ok percentile)
    (hM : ParseFloat lib p.MarginFraction defaultMarginFraction = .ok marginFraction)
    (hW : ParseFloat lib p.MinSampleWeight defaultMinSampleWeight = .ok minSampleWeight) :
    makeInternalConfigTail lib p sampleInterval halfLife options =
      (some { aggregated := p.Aggregated, historyLength := Hour * 24 * 7,
              sampleInterval := sampleInterval, histogramOptions := options,
              histogramDecayHalfLife := halfLife, minSampleWeight := minSampleWeight,
              marginFraction := marginFraction, percentile := percentile }, none) := by
  unfold makeInternalConfigTail
  simp only [hP, hM, hW]

theorem makeInternalConfigTail_cases {F H : Type} [OfScientific F] (lib : Lib F H)
    (p : Percentile) (sampleInterval halfLife : Duration) (options : Option H) :
    (∃ e, makeInternalConfigTail lib p sampleInterval halfLife options = (none, some e)) ∨
    (∃ percentile marginFraction minSampleWeight,
      ParseFloat lib p.Percentile defaultPercentile = .ok percentile ∧
      ParseFloat lib p.MarginFraction defaultMarginFraction = .ok marginFraction ∧
      ParseFloat lib p.MinSampleWeight defaultMinSampleWeight = .ok minSampleWeight ∧
      makeInternalConfigTail lib p sampleInterval halfLife options =
        (some { aggregated := p.Aggregated, historyLength := Hour * 24 * 7,
                sampleInterval := sampleInterval, histogramOptions := options,
                histogramDecayHalfLife := halfLife, minSampleWeight := minSampleWeight,
                marginFraction := marginFraction, percentile := percentile }, none)) := by
  cases hP : ParseFloat lib p.Percentile defaultPercentile with
  | error e => left; exact ⟨e, by unfold makeInternalConfigTail; simp only [hP]⟩
  | ok percentile =>
    cases hM : ParseFloat lib p.MarginFraction defaultMarginFraction with
    | error e => left; exact ⟨e, by unfold makeInternalConfigTail; simp only [hP, hM]⟩
    | ok marginFraction =>
      cases hW : ParseFloat lib p.MinSampleWeight defaultMinSampleWeight with
      | error e => left; exact ⟨e, by unfold makeInternalConfigTail; simp only [hP, hM, hW]⟩
      | ok minSampleWeight =>
        right
        exact ⟨percentile, marginFraction, minSampleWeight, rfl, rfl, rfl,
          makeInternalConfigTail_ok lib p sampleInterval halfLife options percentile
            marginFraction minSampleWeight hP hM hW⟩

theorem ParseFloat_present {F H : Type} (lib : Lib F H) (str : String) (d : F)
    (h : str.length > 0) : ParseFloat lib str d = lib.ParseFloat64 str := by
  unfold ParseFloat
  rw [if_neg (by omega)]

theorem ParseFloat_absent {F H : Type} (lib : Lib F H) (str : String) (d : F)
    (h : str.length = 0) : ParseFloat lib str d = .ok d := by
  unfold ParseFloat
  rw [if_pos h]

/-- C9: when the two durations and the numeric fields that are consumed parse,
`makeInternalConfig` selects the layout by ordered priority.  If `bucketSizeGrowthRatio`,
`firstBucketSize` and `maxValue` are all non-empty, the options are those of the
Exponential constructor on `maxValue`, `firstBucketSize`, `1.0 + bucketSizeGrowthRatio`
and epsilon (also when `bucketSize` is supplied); otherwise, if `bucketSize` and
`maxValue` are non-empty, those of the Linear constructor on `maxValue`, `bucketSize` and
epsilon; otherwise the default options, built by the Linear constructor on 100.0, 0.1 and
1e-10.  An empty epsilon field is 1e-10.  A constructor that rejects its arguments makes
the whole construction fail with its error. -/
theorem C9_bucketing_priority {F H : Type} [OfScientific F] [Add F] (lib : Lib F H)
    (p : Percentile) (sampleInterval halfLife : Duration)
    (percentile marginFraction minSampleWeight : F)
    (hS : lib.ParseDuration p.SampleInterval = .ok sampleInterval)
    (hH : lib.ParseDuration p.Histogram.HalfLife = .ok halfLife)
    (hP : ParseFloat lib p.Percentile defaultPercentile = .ok percentile)
    (hM : ParseFloat lib p.MarginFraction defaultMarginFraction = .ok marginFraction)
    (hW : ParseFloat lib p.MinSampleWeight defaultMinSampleWeight = .ok minSampleWeight) :
    (p.Histogram.BucketSizeGrowthRatio.length > 0 ∧ p.Histogram.FirstBucketSize.length > 0 ∧
        p.Histogram.MaxValue.length > 0 →
      ∀ growth first maxValue epsilon,
        lib.ParseFloat64 p.Histogram.BucketSizeGrowthRatio = .ok growth →
        lib.ParseFloat64 p.Histogram.FirstBucketSize = .ok first →
        lib.ParseFloat64 p.Histogram.MaxValue = .ok maxValue →
        ParseFloat lib p.Histogram.Epsilon 1e-10 = .ok epsilon →
        (∀ options,
          lib.NewExponentialHistogramOptions maxValue first (1.0 + growth) epsilon
            = .ok options →
          makeInternalConfig lib p =
            (some { aggregated := p.Aggregated, historyLength := Hour * 24 * 7,
                    sampleInterval := sampleInterval, histogramOptions := some options,
                    histogramDecayHalfLife := halfLife, minSampleWeight := minSampleWeight,
                    marginFraction := marginFraction, percentile := percentile }, none)) ∧
        (∀ err,
          lib.NewExponentialHistogramOptions maxValue first (1.0 + growth) epsilon
            = .error err →
          makeInternalConfig lib p = (none, some err))) ∧
    (¬ (p.Histogram.BucketSizeGrowthRatio.length > 0 ∧ p.Histogram.FirstBucketSize.length > 0 ∧
        p.Histogram.MaxValue.length > 0) →
      p.Histogram.BucketSize.length > 0 ∧ p.Histogram.MaxValue.length > 0 →
      ∀ bucketSize maxValue epsilon,
        lib.ParseFloat64 p.Histogram.BucketSize = .ok bucketSize →
        lib.ParseFloat64 p.Histogram.MaxValue = .ok maxValue →
        ParseFloat lib p.Histogram.Epsilon 1e-10 = .ok epsilon →
        (∀ options,
          lib.NewLinearHistogramOptions maxValue bucketSize epsilon = .ok options →
          makeInternalConfig lib p =
            (some { aggregated := p.Aggregated, historyLength := Hour * 24 * 7,
                    sampleInterval := sampleInterval, histogramOptions := some options,
                    histogramDecayHalfLife := halfLife, minSampleWeight := minSampleWeight,
                    marginFraction := marginFraction, percentile := percentile }, none)) ∧
        (∀ err,
          lib.NewLinearHistogramOptions maxValue bucketSize epsilon = .error err →
          makeInternalConfig lib p = (none, some err))) ∧
    (¬ (p.Histogram.BucketSizeGrowthRatio.length > 0 ∧ p.Histogram.FirstBucketSize.length > 0 ∧
        p.Histogram.MaxValue.length > 0) →
      ¬ (p.Histogram.BucketSize.length > 0 ∧ p.Histogram.MaxValue.length > 0) →
      makeInternalConfig lib p =
        (some { aggregated := p.Aggregated, historyLength := Hour * 24 * 7,
                sampleInterval := sampleInterval,
                histogramOptions := defaultHistogramOptions lib,
                histogramDecayHalfLife := halfLife, minSampleWeight := minSampleWeight,
                marginFraction := marginFraction, percentile := percentile }, none) ∧
      ∀ options, lib.NewLinearHistogramOptions 100.0 0.1 1e-10 = .ok options →
        defaultHistogramOptions lib = some options) ∧
    (p.Histogram.Epsilon.length = 0 → ParseFloat lib p.Histogram.Epsilon 1e-10 = .ok 1e-10) := by
  have tail := fun options =>
    makeInternalConfigTail_ok lib p sampleInterval halfLife options percentile marginFraction
      minSampleWeight hP hM hW
  refine ⟨?_, ?_, ?_, ?_⟩
  · intro hexp growth first maxValue epsilon hg hf hm he
    have hg2 := (ParseFloat_present lib _ (0.0 : F) hexp.1).trans hg
    have hf2 := (ParseFloat_present lib _ (0.0 : F) hexp.2.1).trans hf
    have hm2 := (ParseFloat_present lib _ (0.0 : F) hexp.2.2).trans hm
    constructor
    · intro options ho
      unfold makeInternalConfig
      simp only [hS, hH, if_pos hexp, hg2, hf2, hm2, he, ho, tail]
    · intro err ho
      unfold makeInternalConfig
      simp only [hS, hH, if_pos hexp, hg2, hf2, hm2, he, ho]
  · intro hexp hlin bucketSize maxValue epsilon hb hm he
    have hb2 := (ParseFloat_present lib _ (0.0 : F) hlin.1).trans hb
    have hm2 := (ParseFloat_present lib _ (0.0 : F) hlin.2).trans hm
    constructor
    · intro options ho
      unfold makeInternalConfig
      simp only [hS, hH, if_neg hexp, if_pos hlin, hb2, hm2, he, ho, tail]
    · intro err ho
      unfold makeInternalConfig
      simp only [hS, hH, if_neg hexp, if_pos hlin, hb2, hm2, he, ho]
  · intro hexp hlin
    constructor
    · unfold makeInternalConfig
      simp only [hS, hH, if_neg hexp, if_neg hlin, tail]
    · intro options ho
      unfold defaultHistogramOptions
      simp only [ho]
  · intro h
    exact ParseFloat_absent lib _ _ h

/-- C9, witness: the input supplies all exponential fields together with the linear
fields, and the options are the exponential ones, with ratio `1.0 + 0.05` and the default
epsilon. -/
theorem C9_bucketing_priority_witness :
    makeInternalConfig Sample.lib Sample.percentileAll =
      (some { aggregated := true, historyLength := Hour * 24 * 7, sampleInterval := Minute,
              histogramOptions := some (Sample.Layout.exponential 100 1 (1.0 + 0.05) 1e-10),
              histogramDecayHalfLife := 24 * Hour, minSampleWeight := defaultMinSampleWeight,
              marginFraction := defaultMarginFraction, percentile := defaultPercentile },
       none) :=
  ((C9_bucketing_priority Sample.lib Sample.percentileAll Minute (24 * Hour) defaultPercentile
      defaultMarginFraction defaultMinSampleWeight rfl rfl rfl rfl rfl).1
    (by decide) 0.05 1 100 1e-10 rfl rfl rfl rfl).1 _ rfl

/-- C10: if `utils.ParseDuration` reports an error for the sample interval, or for the
histogram half-life, `makeInternalConfig` returns that error and a nil config, whatever
the other fields are.  On every input it returns either a config and a nil error or a
nil config and an error; a returned config has every field filled: the flag of the
input, seven days of history, the two parsed durations, the three parsed or defaulted
numbers, and options that are the default ones or come from a constructor. -/
theorem C10_required_durations {F H : Type} [OfScientific F] [Add F] (lib : Lib F H)
    (p : Percentile) :
    (∀ e, lib.ParseDuration p.SampleInterval = .error e →
      makeInternalConfig lib p = (none, some e)) ∧
    (∀ sampleInterval e, lib.ParseDuration p.SampleInterval = .ok sampleInterval →
      lib.ParseDuration p.Histogram.HalfLife = .error e →
      makeInternalConfig lib p = (none, some e)) ∧
    ((∃ e, makeInternalConfig lib p = (none, some e)) ∨
      (∃ c, makeInternalConfig lib p = (some c, none) ∧
        c.aggregated = p.Aggregated ∧ c.historyLength = Hour * 24 * 7 ∧
        lib.ParseDuration p.SampleInterval = .ok c.sampleInterval ∧
        lib.ParseDuration p.Histogram.HalfLife = .ok c.histogramDecayHalfLife ∧
        ParseFloat lib p.Percentile defaultPercentile = .ok c.percentile ∧
        ParseFloat lib p.MarginFraction defaultMarginFraction = .ok c.marginFraction ∧
        ParseFloat lib p.MinSampleWeight defaultMinSampleWeight = .ok c.minSampleWeight ∧
        (c.histogramOptions = defaultHistogramOptions lib ∨
          ∃ options, c.histogramOptions = some options))) := by
  refine ⟨?_, ?_, ?_⟩
  · intro e h
    unfold makeInternalConfig
    simp only [h]
  · intro sampleInterval e hS hH
    unfold makeInternalConfig
    simp only [hS, hH]
  · have fromTail : ∀ (sampleInterval halfLife : Duration) (options : Option H),
        lib.ParseDuration p.SampleInterval = .ok sampleInterval →
        lib.ParseDuration p.Histogram.HalfLife = .ok halfLife →
        (options = defaultHistogramOptions lib ∨ ∃ o, options = some o) →
        makeInternalConfig lib p =
          makeInternalConfigTail lib p sampleInterval halfLife options →
        ((∃ e, makeInternalConfig lib p = (none, some e)) ∨
          (∃ c, makeInternalConfig lib p = (some c, none) ∧
            c.aggregated = p.Aggregated ∧ c.historyLength = Hour * 24 * 7 ∧
            lib.ParseDuration p.SampleInterval = .ok c.sampleInterval ∧
            lib.ParseDuration p.Histogram.HalfLife = .ok c.histogramDecayHalfLife ∧
            ParseFloat lib p.Percentile defaultPercentile = .ok c.percentile ∧
            ParseFloat lib p.MarginFraction defaultMarginFraction = .ok c.marginFraction ∧
            ParseFloat lib p.MinSampleWeight defaultMinSampleWeight = .ok c.minSampleWeight ∧
            (c.histogramOptions = defaultHistogramOptions lib ∨
              ∃ options, c.histogramOptions = some options))) := by
      intro sampleInterval halfLife options hS hH hopt heq
      rcases makeInternalConfigTail_cases lib p sampleInterval halfLife options with
        ⟨e, he⟩ | ⟨pc, mf, msw, hP, hM, hW, hc⟩
      · left; exact ⟨e, heq.trans he⟩
      · right
        exact ⟨_, heq.trans hc, rfl, rfl, hS, hH, hP, hM, hW, hopt⟩
    rcases Except_cases (lib.ParseDuration p.SampleInterval) with ⟨e, hS⟩ | ⟨sampleInterval, hS⟩
    · left; exact ⟨e, by unfold makeInternalConfig; simp only [hS]⟩
    rcases Except_cases (lib.ParseDuration p.Histogram.HalfLife) with ⟨e, hH⟩ | ⟨halfLife, hH⟩
    · left; exact ⟨e, by unfold makeInternalConfig; simp only [hS, hH]⟩
    by_cases hexp : p.Histogram.BucketSizeGrowthRatio.length > 0 ∧
        p.Histogram.FirstBucketSize.length > 0 ∧ p.Histogram.MaxValue.length > 0
    · rcases Except_cases (ParseFloat lib p.Histogram.BucketSizeGrowthRatio (0.0 : F)) with
        ⟨e, hg⟩ | ⟨growth, hg⟩
      · left; exact ⟨e, by unfold makeInternalConfig; simp only [hS, hH, if_pos hexp, hg]⟩
      rcases Except_cases (ParseFloat lib p.Histogram.FirstBucketSize (0.0 : F)) with
        ⟨e, hf⟩ | ⟨first, hf⟩
      · left; exact ⟨e, by unfold makeInternalConfig; simp only [hS, hH, if_pos hexp, hg, hf]⟩
      rcases Except_cases (ParseFloat lib p.Histogram.MaxValue (0.0 : F)) with
        ⟨e, hm⟩ | ⟨maxValue, hm⟩
      · left
        exact ⟨e, by unfold makeInternalConfig; simp only [hS, hH, if_pos hexp, hg, hf, hm]⟩
      rcases Except_cases (ParseFloat lib p.Histogram.Epsilon (1e-10 : F)) with
        ⟨e, he⟩ | ⟨epsilon, he⟩
      · left
        exact ⟨e, by
          unfold makeInternalConfig; simp only [hS, hH, if_pos hexp, hg, hf, hm, he]⟩
      rcases Except_cases (lib.NewExponentialHistogramOptions maxValue first (1.0 + growth)
        epsilon) with ⟨e, ho⟩ | ⟨options, ho⟩
      · left
        exact ⟨e, by
          unfold makeInternalConfig; simp only [hS, hH, if_pos hexp, hg, hf, hm, he, ho]⟩
      · exact fromTail sampleInterval halfLife (some options) hS hH (Or.inr ⟨options, rfl⟩) (by
          unfold makeInternalConfig
          simp only [hS, hH, if_pos hexp, hg, hf, hm, he, ho])
    · by_cases hlin : p.Histogram.BucketSize.length > 0 ∧ p.Histogram.MaxValue.length > 0
      · rcases Except_cases (ParseFloat lib p.Histogram.BucketSize (0.0 : F)) with
          ⟨e, hb⟩ | ⟨bucketSize, hb⟩
        · left
          exact ⟨e, by
            unfold makeInternalConfig; simp only [hS, hH, if_neg hexp, if_pos hlin, hb]⟩
        rcases Except_cases (ParseFloat lib p.Histogram.MaxValue (0.0 : F)) with
          ⟨e, hm⟩ | ⟨maxValue, hm⟩
        · left
          exact ⟨e, by
            unfold makeInternalConfig; simp only [hS, hH, if_neg hexp, if_pos hlin, hb, hm]⟩
        rcases Except_cases (ParseFloat lib p.Histogram.Epsilon (1e-10 : F)) with
          ⟨e, he⟩ | ⟨epsilon, he⟩
        · left
          exact ⟨e, by
            unfold makeInternalConfig
            simp only [hS, hH, if_neg hexp, if_pos hlin, hb, hm, he]⟩
        rcases Except_cases (lib.NewLinearHistogramOptions maxValue bucketSize epsilon) with
          ⟨e, ho⟩ | ⟨options, ho⟩
        · left
          exact ⟨e, by
            unfold makeInternalConfig
            simp only [hS, hH, if_neg hexp, if_pos hlin, hb, hm, he, ho]⟩
        · exact fromTail sampleInterval halfLife (some options) hS hH (Or.inr ⟨options, rfl⟩)
            (by
              unfold makeInternalConfig
              simp only [hS, hH, if_neg hexp, if_pos hlin, hb, hm, he, ho])
      · exact fromTail sampleInterval halfLife (defaultHistogramOptions lib) hS hH
          (Or.inl rfl) (by
            unfold makeInternalConfig
            simp only [hS, hH, if_neg hexp, if_neg hlin])

/-- C10, witness: with a missing sample interval the sample library reports an error, and
the construction returns that error and no config. -/
theorem C10_required_durations_witness :
    makeInternalConfig Sample.lib Sample.percentileNoInterval =
      (none, some "invalid duration") :=
  (C10_required_durations Sample.lib Sample.percentileNoInterval).1 "invalid duration" rfl

/-! ## `makeInternalConfig`: what a returned configuration comes from -/

theorem makeInternalConfig_cases {F H : Type} [OfScientific F] [Add F] (lib : Lib F H)
    (p : Percentile) :
    (∃ e, makeInternalConfig lib p = (none, some e)) ∨
    (∃ sampleInterval halfLife options percentile marginFraction minSampleWeight,
      lib.ParseDuration p.SampleInterval = .ok sampleInterval ∧
      lib.ParseDuration p.Histogram.HalfLife = .ok halfLife ∧
      ParseFloat lib p.Percentile defaultPercentile = .ok percentile ∧
      ParseFloat lib p.MarginFraction defaultMarginFraction = .ok marginFraction ∧
      ParseFloat lib p.MinSampleWeight defaultMinSampleWeight = .ok minSampleWeight ∧
      (p.Histogram.BucketSizeGrowthRatio.length > 0 ∧ p.Histogram.FirstBucketSize.length > 0 ∧
          p.Histogram.MaxValue.length > 0 →
        ∃ growth first maxValue epsilon o,
          ParseFloat lib p.Histogram.BucketSizeGrowthRatio 0.0 = .ok growth ∧
          ParseFloat lib p.Histogram.FirstBucketSize 0.0 = .ok first ∧
          ParseFloat lib p.Histogram.MaxValue 0.0 = .ok maxValue ∧
          ParseFloat lib p.Histogram.Epsilon 1e-10 = .ok epsilon ∧
          lib.NewExponentialHistogramOptions maxValue first (1.0 + growth) epsilon = .ok o ∧
          options = some o) ∧
      (¬ (p.Histogram.BucketSizeGrowthRatio.length > 0 ∧
          p.Histogram.FirstBucketSize.length > 0 ∧ p.Histogram.MaxValue.length > 0) →
        p.Histogram.BucketSize.length > 0 ∧ p.Histogram.MaxValue.length > 0 →
        ∃ bucketSize maxValue epsilon o,
          ParseFloat lib p.Histogram.BucketSize 0.0 = .ok bucketSize ∧
          ParseFloat lib p.Histogram.MaxValue 0.0 = .ok maxValue ∧
          ParseFloat lib p.Histogram.Epsilon 1e-10 = .ok epsilon ∧
          lib.NewLinearHistogramOptions maxValue bucketSize epsilon = .ok o ∧
          options = some o) ∧
      (¬ (p.Histogram.BucketSizeGrowthRatio.length > 0 ∧
          p.Histogram.FirstBucketSize.length > 0 ∧ p.Histogram.MaxValue.length > 0) →
        ¬ (p.Histogram.BucketSize.length > 0 ∧ p.Histogram.MaxValue.length > 0) →
        options = defaultHistogramOptions lib) ∧
      makeInternalConfig lib p =
        (some { aggregated := p.Aggregated, historyLength := Hour * 24 * 7,
                sampleInterval := sampleInterval, histogramOptions := options,
                histogramDecayHalfLife := halfLife, minSampleWeight := minSampleWeight,
                marginFraction := marginFraction, percentile := percentile }, none)) := by
  rcases Except_cases (lib.ParseDuration p.SampleInterval) with ⟨e, hS⟩ | ⟨sampleInterval, hS⟩
  · left; exact ⟨e, by unfold makeInternalConfig; simp only [hS]⟩
  rcases Except_cases (lib.ParseDuration p.Histogram.HalfLife) with ⟨e, hH⟩ | ⟨halfLife, hH⟩
  · left; exact ⟨e, by unfold makeInternalConfig; simp only [hS, hH]⟩
  by_cases hexp : p.Histogram.BucketSizeGrowthRatio.length > 0 ∧
      p.Histogram.FirstBucketSize.length > 0 ∧ p.Histogram.MaxValue.length > 0
  · rcases Except_cases (ParseFloat lib p.Histogram.BucketSizeGrowthRatio (0.0 : F)) with
      ⟨e, hg⟩ | ⟨growth, hg⟩
    · left; exact ⟨e, by unfold makeInternalConfig; simp only [hS, hH, if_pos hexp, hg]⟩
    rcases Except_cases (ParseFloat lib p.Histogram.FirstBucketSize (0.0 : F)) with
      ⟨e, hf⟩ | ⟨first, hf⟩
    · left; exact ⟨e, by unfold makeInternalConfig; simp only [hS, hH, if_pos hexp, hg, hf]⟩
    rcases Except_cases (ParseFloat lib p.Histogram.MaxValue (0.0 : F)) with
      ⟨e, hm⟩ | ⟨maxValue, hm⟩
    · left
      exact ⟨e, by unfold makeInternalConfig; simp only [hS, hH, if_pos hexp, hg, hf, hm]⟩
    rcases Except_cases (ParseFloat lib p.Histogram.Epsilon (1e-10 : F)) with
      ⟨e, he⟩ | ⟨epsilon, he⟩
    · left
      exact ⟨e, by unfold makeInternalConfig; simp only [hS, hH, if_pos hexp, hg, hf, hm, he]⟩
    rcases Except_cases (lib.NewExponentialHistogramOptions maxValue first (1.0 + growth)
      epsilon) with ⟨e, ho⟩ | ⟨o, ho⟩
    · left
      exact ⟨e, by
        unfold makeInternalConfig; simp only [hS, hH, if_pos hexp, hg, hf, hm, he, ho]⟩
    have heq : makeInternalConfig lib p =
        makeInternalConfigTail lib p sampleInterval halfLife (some o) := by
      unfold makeInternalConfig
      simp only [hS, hH, if_pos hexp, hg, hf, hm, he, ho]
    rcases makeInternalConfigTail_cases lib p sampleInterval halfLife (some o) with
      ⟨e, hte⟩ | ⟨pc, mf, msw, hP, hM, hW, hc⟩
    · left; exact ⟨e, heq.trans hte⟩
    · right
      exact ⟨sampleInterval, halfLife, some o, pc, mf, msw, hS, hH, hP, hM, hW,
        fun _ => ⟨growth, first, maxValue, epsilon, o, hg, hf, hm, he, ho, rfl⟩,
        fun hn => absurd hexp hn, fun hn => absurd hexp hn, heq.trans hc⟩
  · by_cases hlin : p.Histogram.BucketSize.length > 0 ∧ p.Histogram.MaxValue.length > 0
    · rcases Except_cases (ParseFloat lib p.Histogram.BucketSize (0.0 : F)) with
        ⟨e, hb⟩ | ⟨bucketSize, hb⟩
      · left
        exact ⟨e, by unfold makeInternalConfig; simp only [hS, hH, if_neg hexp, if_pos hlin, hb]⟩
      rcases Except_cases (ParseFloat lib p.Histogram.MaxValue (0.0 : F)) with
        ⟨e, hm⟩ | ⟨maxValue, hm⟩
      · left
        exact ⟨e, by
          unfold makeInternalConfig; simp only [hS, hH, if_neg hexp, if_pos hlin, hb, hm]⟩
      rcases Except_cases (ParseFloat lib p.Histogram.Epsilon (1e-10 : F)) with
        ⟨e, he⟩ | ⟨epsilon, he⟩
      · left
        exact ⟨e, by
          unfold makeInternalConfig; simp only [hS, hH, if_neg hexp, if_pos hlin, hb, hm, he]⟩
      rcases Except_cases (lib.NewLinearHistogramOptions maxValue bucketSize epsilon) with
        ⟨e, ho⟩ | ⟨o, ho⟩
      · left
        exact ⟨e, by
          unfold makeInternalConfig
          simp only [hS, hH, if_neg hexp, if_pos hlin, hb, hm, he, ho]⟩
      have heq : makeInternalConfig lib p =
          makeInternalConfigTail lib p sampleInterval halfLife (some o) := by
        unfold makeInternalConfig
        simp only [hS, hH, if_neg hexp, if_pos hlin, hb, hm, he, ho]
      rcases makeInternalConfigTail_cases lib p sampleInterval halfLife (some o) with
        ⟨e, hte⟩ | ⟨pc, mf, msw, hP, hM, hW, hc⟩
      · left; exact ⟨e, heq.trans hte⟩
      · right
        exact ⟨sampleInterval, halfLife, some o, pc, mf, msw, hS, hH, hP, hM, hW,
          fun hy => absurd hy hexp,
          fun _ _ => ⟨bucketSize, maxValue, epsilon, o, hb, hm, he, ho, rfl⟩,
          fun _ hn => absurd hlin hn, heq.trans hc⟩
    · have heq : makeInternalConfig lib p =
          makeInternalConfigTail lib p sampleInterval halfLife (defaultHistogramOptions lib) := by
        unfold makeInternalConfig
        simp only [hS, hH, if_neg hexp, if_neg hlin]
      rcases makeInternalConfigTail_cases lib p sampleInterval halfLife
        (defaultHistogramOptions lib) with ⟨e, hte⟩ | ⟨pc, mf, msw, hP, hM, hW, hc⟩
      · left; exact ⟨e, heq.trans hte⟩
      · right
        exact ⟨sampleInterval, halfLife, defaultHistogramOptions lib, pc, mf, msw, hS, hH, hP,
          hM, hW, fun hy => absurd hy hexp, fun _ hy => absurd hy hlin, fun _ _ => rfl,
          heq.trans hc⟩

theorem ParseFloat_present_error {F H : Type} (lib : Lib F H) (str : String) (d v : F)
    (h : str.length > 0) (hbad : ∃ e, lib.ParseFloat64 str = .error e) :
    ParseFloat lib str d ≠ .ok v := by
  obtain ⟨e, he⟩ := hbad
  rw [ParseFloat_present lib str d h, he]
  intro hc
  cases hc

/-- C11 (as amended): a numeric field that is present and does not parse fails the whole
construction when the field is consumed: `bucketSizeGrowthRatio`, `firstBucketSize`,
`maxValue` and `epsilon` when the exponential layout is selected, `bucketSize`,
`maxValue` and `epsilon` when the linear layout is selected, and `percentile`,
`marginFraction`, `minSampleWeight` on every input.  In a returned configuration a present
one of the last three is the parsed value of its field, not the default. -/
theorem C11_consumed_field_must_parse {F H : Type} [OfScientific F] [Add F] (lib : Lib F H)
    (p : Percentile) :
    (p.Histogram.BucketSizeGrowthRatio.length > 0 ∧ p.Histogram.FirstBucketSize.length > 0 ∧
        p.Histogram.MaxValue.length > 0 →
      ((∃ e, lib.ParseFloat64 p.Histogram.BucketSizeGrowthRatio = .error e) ∨
        (∃ e, lib.ParseFloat64 p.Histogram.FirstBucketSize = .error e) ∨
        (∃ e, lib.ParseFloat64 p.Histogram.MaxValue = .error e) ∨
        (p.Histogram.Epsilon.length > 0 ∧
          ∃ e, lib.ParseFloat64 p.Histogram.Epsilon = .error e)) →
      ∃ e, makeInternalConfig lib p = (none, some e)) ∧
    (¬ (p.Histogram.BucketSizeGrowthRatio.length > 0 ∧ p.Histogram.FirstBucketSize.length > 0 ∧
        p.Histogram.MaxValue.length > 0) →
      p.Histogram.BucketSize.length > 0 ∧ p.Histogram.MaxValue.length > 0 →
      ((∃ e, lib.ParseFloat64 p.Histogram.BucketSize = .error e) ∨
        (∃ e, lib.ParseFloat64 p.Histogram.MaxValue = .error e) ∨
        (p.Histogram.Epsilon.length > 0 ∧
          ∃ e, lib.ParseFloat64 p.Histogram.Epsilon = .error e)) →
      ∃ e, makeInternalConfig lib p = (none, some e)) ∧
    (((p.Percentile.length > 0 ∧ ∃ e, lib.ParseFloat64 p.Percentile = .error e) ∨
        (p.MarginFraction.length > 0 ∧ ∃ e, lib.ParseFloat64 p.MarginFraction = .error e) ∨
        (p.MinSampleWeight.length > 0 ∧ ∃ e, lib.ParseFloat64 p.MinSampleWeight = .error e)) →
      ∃ e, makeInternalConfig lib p = (none, some e)) ∧
    (∀ c, makeInternalConfig lib p = (some c, none) →
      (p.Percentile.length > 0 → lib.ParseFloat64 p.Percentile = .ok c.percentile) ∧
      (p.MarginFraction.length > 0 → lib.ParseFloat64 p.MarginFraction = .ok c.marginFraction) ∧
      (p.MinSampleWeight.length > 0 →
        lib.ParseFloat64 p.MinSampleWeight = .ok c.minSampleWeight)) := by
  refine ⟨?_, ?_, ?_, ?_⟩
  · intro hexp hbad
    rcases makeInternalConfig_cases lib p with hfail |
      ⟨si, hl, options, pc, mf, msw, _, _, _, _, _, hE, _, _, _⟩
    · exact hfail
    · obtain ⟨growth, first, maxValue, epsilon, o, hg, hf, hm, he, _, _⟩ := hE hexp
      rcases hbad with hb | hb | hb | ⟨hlen, hb⟩
      · exact absurd hg (ParseFloat_present_error lib _ _ _ hexp.1 hb)
      · exact absurd hf (ParseFloat_present_error lib _ _ _ hexp.2.1 hb)
      · exact absurd hm (ParseFloat_present_error lib _ _ _ hexp.2.2 hb)
      · exact absurd he (ParseFloat_present_error lib _ _ _ hlen hb)
  · intro hexp hlin hbad
    rcases makeInternalConfig_cases lib p with hfail |
      ⟨si, hl, options, pc, mf, msw, _, _, _, _, _, _, hL, _, _⟩
    · exact hfail
    · obtain ⟨bucketSize, maxValue, epsilon, o, hb2, hm, he, _, _⟩ := hL hexp hlin
      rcases hbad with hb | hb | ⟨hlen, hb⟩
      · exact absurd hb2 (ParseFloat_present_error lib _ _ _ hlin.1 hb)
      · exact absurd hm (ParseFloat_present_error lib _ _ _ hlin.2 hb)
      · exact absurd he (ParseFloat_present_error lib _ _ _ hlen hb)
  · intro hbad
    rcases makeInternalConfig_cases lib p with hfail |
      ⟨si, hl, options, pc, mf, msw, _, _, hP, hM, hW, _, _, _, _⟩
    · exact hfail
    · rcases hbad with ⟨hlen, hb⟩ | ⟨hlen, hb⟩ | ⟨hlen, hb⟩
      · exact absurd hP (ParseFloat_present_error lib _ _ _ hlen hb)
      · exact absurd hM (ParseFloat_present_error lib _ _ _ hlen hb)
      · exact absurd hW (ParseFloat_present_error lib _ _ _ hlen hb)
  · intro c hc
    rcases makeInternalConfig_cases lib p with ⟨e, hfail⟩ |
      ⟨si, hl, options, pc, mf, msw, _, _, hP, hM, hW, _, _, _, hok⟩
    · rw [hfail] at hc
      cases hc
    · rw [hok] at hc
      cases hc
      exact ⟨fun h => (ParseFloat_present lib _ _ h).symm.trans hP,
        fun h => (ParseFloat_present lib _ _ h).symm.trans hM,
        fun h => (ParseFloat_present lib _ _ h).symm.trans hW⟩

/-- C11, witness: a percentile field that is present and is no number fails the
construction, although every other field is fine. -/
theorem C11_consumed_field_must_parse_witness :
    ∃ e, makeInternalConfig Sample.lib Sample.percentileBadPercentile = (none, some e) :=
  (C11_consumed_field_must_parse Sample.lib Sample.percentileBadPercentile).2.2.1
    (Or.inl ⟨by decide, "invalid syntax", rfl⟩)

/-- C11, counterexample to the claim as stated: `bucketSizeGrowthRatio` is present and
does not parse, `firstBucketSize` is empty; the field is not consumed, the construction
succeeds and the layout is the default one. -/
theorem C11_counterexample_unused_field :
    Sample.percentileBadGrowth.Histogram.BucketSizeGrowthRatio.length > 0 ∧
    Sample.lib.ParseFloat64 Sample.percentileBadGrowth.Histogram.BucketSizeGrowthRatio
      = .error "invalid syntax" ∧
    makeInternalConfig Sample.lib Sample.percentileBadGrowth =
      (some { aggregated := true, historyLength := Hour * 24 * 7, sampleInterval := Minute,
              histogramOptions := some (Sample.Layout.linear 100.0 0.1 1e-10),
              histogramDecayHalfLife := 24 * Hour, minSampleWeight := defaultMinSampleWeight,
              marginFraction := defaultMarginFraction, percentile := defaultPercentile },
       none) := by
  refine ⟨by decide, rfl, rfl⟩

/-- C12: in a configuration that `makeInternalConfig` returns, `percentile` is 0.99 when
its field is empty and the parsed value of the field otherwise, `marginFraction` is 0.25
or the parsed value, `minSampleWeight` is 1e-5 or the parsed value, each on its own;
`historyLength` is seven days; `aggregated` is the flag of the input, and `sampleInterval`
and `histogramDecayHalfLife` are the two parsed durations. -/
theorem C12_defaults_and_fixed_fields {F H : Type} [OfScientific F] [Add F] (lib : Lib F H)
    (p : Percentile) (c : internalConfig F H) (h : (makeInternalConfig lib p).1 = some c) :
    (p.Percentile.length = 0 → c.percentile = 0.99) ∧
    (p.Percentile.length > 0 → lib.ParseFloat64 p.Percentile = .ok c.percentile) ∧
    (p.MarginFraction.length = 0 → c.marginFraction = 0.25) ∧
    (p.MarginFraction.length > 0 → lib.ParseFloat64 p.MarginFraction = .ok c.marginFraction) ∧
    (p.MinSampleWeight.length = 0 → c.minSampleWeight = 1e-5) ∧
    (p.MinSampleWeight.length > 0 →
      lib.ParseFloat64 p.MinSampleWeight = .ok c.minSampleWeight) ∧
    c.historyLength = 7 * 24 * 3600 * 1000000000 ∧
    c.aggregated = p.Aggregated ∧
    lib.ParseDuration p.SampleInterval = .ok c.sampleInterval ∧
    lib.ParseDuration p.Histogram.HalfLife = .ok c.histogramDecayHalfLife := by
  have absent : ∀ (str : String) (d v : F), str.length = 0 →
      ParseFloat lib str d = .ok v → v = d := by
    intro str d v hlen hv
    rw [ParseFloat_absent lib str d hlen] at hv
    cases hv
    rfl
  rcases makeInternalConfig_cases lib p with ⟨e, hfail⟩ |
    ⟨si, hl, options, pc, mf, msw, hS, hH, hP, hM, hW, _, _, _, hok⟩
  · rw [hfail] at h
    cases h
  · rw [hok] at h
    cases h
    refine ⟨fun hl0 => absent _ _ _ hl0 hP,
      fun hpos => (ParseFloat_present lib _ _ hpos).symm.trans hP,
      fun hl0 => absent _ _ _ hl0 hM,
      fun hpos => (ParseFloat_present lib _ _ hpos).symm.trans hM,
      fun hl0 => absent _ _ _ hl0 hW,
      fun hpos => (ParseFloat_present lib _ _ hpos).symm.trans hW,
      ?_, rfl, hS, hH⟩
    show Hour * 24 * 7 = (7 * 24 * 3600 * 1000000000 : Int)
    decide

/-- C12, witness: an input with a margin fraction and no other numeric field gets the
defaults 0.99 and 1e-5, the parsed margin fraction, and seven days of history. -/
theorem C12_defaults_and_fixed_fields_witness :
    ∃ c, (makeInternalConfig Sample.lib Sample.percentileDefaults).1 = some c ∧
      c.percentile = 0.99 ∧ c.minSampleWeight = 1e-5 ∧
      Sample.lib.ParseFloat64 "0.05" = .ok c.marginFraction ∧
      c.historyLength = 604800000000000 ∧ c.aggregated = false :=
  ⟨_, rfl,
    (C12_defaults_and_fixed_fields Sample.lib Sample.percentileDefaults _ rfl).1 (by decide),
    (C12_defaults_and_fixed_fields Sample.lib Sample.percentileDefaults _ rfl).2.2.2.2.1
      (by decide),
    (C12_defaults_and_fixed_fields Sample.lib Sample.percentileDefaults _ rfl).2.2.2.1
      (by decide),
    (C12_defaults_and_fixed_fields Sample.lib Sample.percentileDefaults _ rfl).2.2.2.2.2.2.1,
    (C12_defaults_and_fixed_fields Sample.lib Sample.percentileDefaults _ rfl).2.2.2.2.2.2.2.1⟩

theorem Sample_libChecked_rejectsInvalid : Sample.libChecked.rejectsInvalid := by
  constructor
  · intro maxValue bucketSize epsilon h
    refine ⟨_, if_pos ?_⟩
    rcases h with h | h
    · exact Or.inl h
    · exact Or.inr (Or.inl h)
  · intro maxValue firstBucketSize ratio epsilon h
    refine ⟨_, if_pos ?_⟩
    rcases h with h | h | h
    · exact Or.inl h
    · exact Or.inr (Or.inl h)
    · exact Or.inr (Or.inr (Or.inl h))

/-- C13: with the two durations parsed, an error of the constructor of the selected layout
is the error `makeInternalConfig` returns, with a nil config: for the Exponential layout
on `maxValue`, `firstBucketSize`, `1.0 + bucketSizeGrowthRatio`, epsilon, for the Linear
layout on `maxValue`, `bucketSize`, epsilon.  With constructors that reject what the
specification says they reject, the construction therefore fails when the Linear layout is
selected with `bucketSize ≤ 0` or `maxValue ≤ 0`, and when the Exponential layout is
selected with `maxValue ≤ 0`, `firstBucketSize ≤ 0` or `1 + bucketSizeGrowthRatio ≤ 1`. -/
theorem C13_histogram_options_error {F H : Type} [OfScientific F] [Add F] [LE F]
    (lib : Lib F H) (p : Percentile) (sampleInterval halfLife : Duration)
    (hS : lib.ParseDuration p.SampleInterval = .ok sampleInterval)
    (hH : lib.ParseDuration p.Histogram.HalfLife = .ok halfLife) :
    (p.Histogram.BucketSizeGrowthRatio.length > 0 ∧ p.Histogram.FirstBucketSize.length > 0 ∧
        p.Histogram.MaxValue.length > 0 →
      ∀ growth first maxValue epsilon,
        lib.ParseFloat64 p.Histogram.BucketSizeGrowthRatio = .ok growth →
        lib.ParseFloat64 p.Histogram.FirstBucketSize = .ok first →
        lib.ParseFloat64 p.Histogram.MaxValue = .ok maxValue →
        ParseFloat lib p.Histogram.Epsilon 1e-10 = .ok epsilon →
        (∀ err,
          lib.NewExponentialHistogramOptions maxValue first (1.0 + growth) epsilon
            = .error err →
          makeInternalConfig lib p = (none, some err)) ∧
        (lib.rejectsInvalid →
          maxValue ≤ 0.0 ∨ first ≤ 0.0 ∨ 1.0 + growth ≤ 1.0 →
          ∃ err,
            lib.NewExponentialHistogramOptions maxValue first (1.0 + growth) epsilon
              = .error err ∧
            makeInternalConfig lib p = (none, some err))) ∧
    (¬ (p.Histogram.BucketSizeGrowthRatio.length > 0 ∧ p.Histogram.FirstBucketSize.length > 0 ∧
        p.Histogram.MaxValue.length > 0) →
      p.Histogram.BucketSize.length > 0 ∧ p.Histogram.MaxValue.length > 0 →
      ∀ bucketSize maxValue epsilon,
        lib.ParseFloat64 p.Histogram.BucketSize = .ok bucketSize →
        lib.ParseFloat64 p.Histogram.MaxValue = .ok maxValue →
        ParseFloat lib p.Histogram.Epsilon 1e-10 = .ok epsilon →
        (∀ err,
          lib.NewLinearHistogramOptions maxValue bucketSize epsilon = .error err →
          makeInternalConfig lib p = (none, some err)) ∧
        (lib.rejectsInvalid →
          bucketSize ≤ 0.0 ∨ maxValue ≤ 0.0 →
          ∃ err,
            lib.NewLinearHistogramOptions maxValue bucketSize epsilon = .error err ∧
            makeInternalConfig lib p = (none, some err))) := by
  constructor
  · intro hexp growth first maxValue epsilon hg hf hm he
    have hg2 := (ParseFloat_present lib _ (0.0 : F) hexp.1).trans hg
    have hf2 := (ParseFloat_present lib _ (0.0 : F) hexp.2.1).trans hf
    have hm2 := (ParseFloat_present lib _ (0.0 : F) hexp.2.2).trans hm
    have key : ∀ err,
        lib.NewExponentialHistogramOptions maxValue first (1.0 + growth) epsilon
          = .error err →
        makeInternalConfig lib p = (none, some err) := by
      intro err ho
      unfold makeInternalConfig
      simp only [hS, hH, if_pos hexp, hg2, hf2, hm2, he, ho]
    refine ⟨key, ?_⟩
    intro hrej hbad
    obtain ⟨err, herr⟩ := hrej.2 maxValue first (1.0 + growth) epsilon hbad
    exact ⟨err, herr, key err herr⟩
  · intro hexp hlin bucketSize maxValue epsilon hb hm he
    have hb2 := (ParseFloat_present lib _ (0.0 : F) hlin.1).trans hb
    have hm2 := (ParseFloat_present lib _ (0.0 : F) hlin.2).trans hm
    have key : ∀ err,
        lib.NewLinearHistogramOptions maxValue bucketSize epsilon = .error err →
        makeInternalConfig lib p = (none, some err) := by
      intro err ho
      unfold makeInternalConfig
      simp only [hS, hH, if_neg hexp, if_pos hlin, hb2, hm2, he, ho]
    refine ⟨key, ?_⟩
    intro hrej hbad
    obtain ⟨err, herr⟩ := hrej.1 maxValue bucketSize epsilon (Or.symm hbad)
    exact ⟨err, herr, key err herr⟩

/-- C13, witness: the linear layout with a bucket size of zero, on a library whose
constructors check their arguments: the construction fails with the error of the
constructor. -/
theorem C13_histogram_options_error_witness :
    ∃ err, Sample.libChecked.NewLinearHistogramOptions 100 0 1e-10 = .error err ∧
      makeInternalConfig Sample.libChecked Sample.percentileZeroBucket = (none, some err) :=
  ((C13_histogram_options_error Sample.libChecked Sample.percentileZeroBucket Minute
      (24 * Hour) rfl rfl).2 (by decide) (by decide) 0 100 1e-10 rfl rfl rfl).2
    Sample_libChecked_rejectsInvalid (Or.inl (by norm_num))

/-! ## Passes without effect -/

/-- C14: when the object is not found, or the loaded object carries a deletion marker, or
`ShouldRecommend` is false, `Reconcile` returns `ctrl.Result{}` and a nil error and leaves
the world as it was: no pipeline stage is called, no write is issued, no event is
recorded, the store is untouched; the object in memory is the loaded one. -/
theorem C14_noop_passes (env : Env) (clock : Clock) (w : World) (req : Request) :
    (ClientGet env w req = .error .NotFound →
      Reconcile env clock w req =
        some { result := Result.empty, err := none, world := w, recommendation := none }) ∧
    (∀ r, ClientGet env w req = .ok r → r.DeletionTimestamp ≠ none →
      Reconcile env clock w req =
        some { result := Result.empty, err := none, world := w, recommendation := some r }) ∧
    (∀ r, ClientGet env w req = .ok r → r.DeletionTimestamp = none →
      ShouldRecommend clock.tShould r = some false →
      Reconcile env clock w req =
        some { result := Result.empty, err := none, world := w, recommendation := some r }) ∧
    ¬ Result.empty.requeues := by
  refine ⟨?_, ?_, ?_, by decide⟩
  · intro h
    unfold Reconcile
    simp only [h, IgnoreNotFound]
  · intro r h hdel
    unfold Reconcile
    simp only [h]
    cases hd : r.DeletionTimestamp with
    | none => exact absurd hd hdel
    | some t => rfl
  · intro r h hdel hdue
    unfold Reconcile
    simp only [h, hdel, hdue]

/-- C14, witness: a Once object that was already updated, an object with a deletion
marker, and a request for an object that is not in the store: each pass returns
`ctrl.Result{}` and nil and leaves the world as it was. -/
theorem C14_noop_passes_witness :
    Reconcile Sample.envOk (Sample.clockAt Sample.t0)
        (World.init (some (Sample.recommendation CompletionStrategyOnce none (some Sample.t0))))
        Sample.request =
      some { result := Result.empty, err := none,
             world := World.init
               (some (Sample.recommendation CompletionStrategyOnce none (some Sample.t0))),
             recommendation :=
               some (Sample.recommendation CompletionStrategyOnce none (some Sample.t0)) } ∧
    Reconcile Sample.envOk (Sample.clockAt Sample.t0)
        (World.init (some (Sample.deleted CompletionStrategyPeriodical (some 300) none)))
        Sample.request =
      some { result := Result.empty, err := none,
             world := World.init
               (some (Sample.deleted CompletionStrategyPeriodical (some 300) none)),
             recommendation :=
               some (Sample.deleted CompletionStrategyPeriodical (some 300) none) } ∧
    Reconcile Sample.envOk (Sample.clockAt Sample.t0) (World.init none) Sample.request =
      some { result := Result.empty, err := none, world := World.init none,
             recommendation := none } :=
  ⟨(C14_noop_passes Sample.envOk (Sample.clockAt Sample.t0) _ Sample.request).2.2.1 _ rfl rfl
      (by decide),
   (C14_noop_passes Sample.envOk (Sample.clockAt Sample.t0) _ Sample.request).2.1 _ rfl
      (by decide),
   (C14_noop_passes Sample.envOk (Sample.clockAt Sample.t0) _ Sample.request).1 rfl⟩

/-! ## The types of the conditions -/

theorem setReadyConditionList_types (now : Time) (conditionStatus reason message : String)
    (l : List Condition) :
    (setReadyConditionList now conditionStatus reason message l).map Condition.Type_ =
      if "Ready" ∈ l.map Condition.Type_ then l.map Condition.Type_
      else l.map Condition.Type_ ++ ["Ready"] := by
  induction l with
  | nil => rfl
  | cons a rest ih =>
    by_cases ha : a.Type_ = "Ready"
    · have hmem : "Ready" ∈ (a :: rest).map Condition.Type_ := by
        rw [List.map_cons, ← ha]
        exact List.mem_cons_self _ _
      simp only [setReadyConditionList]
      rw [if_pos ha, if_pos hmem]
      rfl
    · simp only [setReadyConditionList]
      rw [if_neg ha, List.map_cons, ih]
      by_cases hr : "Ready" ∈ rest.map Condition.Type_
      · have hmem : "Ready" ∈ (a :: rest).map Condition.Type_ := by
          rw [List.map_cons]
          exact List.mem_cons_of_mem _ hr
        rw [if_pos hr, if_pos hmem, List.map_cons]
      · have hmem : "Ready" ∉ (a :: rest).map Condition.Type_ := by
          rw [List.map_cons]
          intro hc
          rcases List.mem_cons.mp hc with h | h
          · exact ha h.symm
          · exact hr h
        rw [if_neg hr, if_neg hmem, List.map_cons, List.cons_append]

theorem setReadyCondition_unique (now : Time) (status : RecommendationStatus)
    (conditionStatus reason message : String)
    (h : (status.Conditions.map Condition.Type_).Nodup) :
    ((setReadyCondition now status conditionStatus reason message).Conditions.map
        Condition.Type_).Nodup ∧
    ((setReadyCondition now status conditionStatus reason message).Conditions.map
        Condition.Type_).count "Ready" = 1 := by
  show ((setReadyConditionList now conditionStatus reason message status.Conditions).map
        Condition.Type_).Nodup ∧
      ((setReadyConditionList now conditionStatus reason message status.Conditions).map
        Condition.Type_).count "Ready" = 1
  rw [setReadyConditionList_types]
  by_cases hr : "Ready" ∈ status.Conditions.map Condition.Type_
  · rw [if_pos hr]
    exact ⟨h, List.count_eq_one_of_mem h hr⟩
  · rw [if_neg hr]
    have hnodup : (status.Conditions.map Condition.Type_ ++ ["Ready"]).Nodup := by
      rw [List.nodup_append]
      refine ⟨h, List.nodup_singleton _, ?_⟩
      intro x hx hx2
      rw [List.mem_singleton] at hx2
      exact hr (hx2 ▸ hx)
    exact ⟨hnodup, List.count_eq_one_of_mem hnodup (by simp)⟩

/-- C15: if the conditions of a status have at most one entry per type, then after
`setReadyCondition` they have at most one entry per type and exactly one entry of type
Ready.  So has the status `DoRecommend` submits when the construction of the recommender
fails or `Offer` fails, for an object whose conditions have at most one entry per type,
and the status it submits after the value application when the status that step returns
has at most one entry per type. -/
theorem C15_condition_types_stay_unique (now : Time) (status : RecommendationStatus)
    (conditionStatus reason message : String)
    (h : (status.Conditions.map Condition.Type_).Nodup) :
    (((setReadyCondition now status conditionStatus reason message).Conditions.map
        Condition.Type_).Nodup ∧
      ((setReadyCondition now status conditionStatus reason message).Conditions.map
        Condition.Type_).count "Ready" = 1) ∧
    (∀ (env : Env) (clock : Clock) (w : World) (r : Recommendation), r.Status = status →
      ((∃ e, env.NewRecommender r = .error e) ∨
        (∃ recommender e, env.NewRecommender r = .ok recommender ∧
          recommender.Offer = .error e) ∨
        (∃ recommender proposed, env.NewRecommender r = .ok recommender ∧
          recommender.Offer = .ok proposed ∧
          ((env.UpdateRecommendation r proposed r.Status).1.Conditions.map
            Condition.Type_).Nodup)) →
      ((DoRecommendStages env clock w r).2.Conditions.map Condition.Type_).Nodup ∧
      ((DoRecommendStages env clock w r).2.Conditions.map Condition.Type_).count "Ready"
        = 1) := by
  refine ⟨setReadyCondition_unique now status conditionStatus reason message h, ?_⟩
  intro env clock w r hr hpath
  rw [← hr] at h
  rcases hpath with ⟨e, hn⟩ | ⟨recommender, e, hn, ho⟩ | ⟨recommender, proposed, hn, ho, hu⟩
  · rw [DoRecommendStages_create_fails env clock w r e hn]
    exact setReadyCondition_unique _ _ _ _ _ h
  · rw [DoRecommendStages_offer_fails env clock w r recommender e hn ho]
    exact setReadyCondition_unique _ _ _ _ _ h
  · rcases hres : env.UpdateRecommendation r proposed r.Status with ⟨st, _ | e⟩
    · rw [DoRecommendStages_success env clock w r recommender proposed st hn ho hres]
      rw [hres] at hu
      exact setReadyCondition_unique _ _ _ _ _ hu
    · rw [DoRecommendStages_apply_fails env clock w r recommender proposed st e hn ho hres]
      rw [hres] at hu
      exact setReadyCondition_unique _ _ _ _ _ hu

/-- C15, witness: a status with one Available and one Ready condition keeps one entry per
type, one of them Ready, when the Ready condition is set again. -/
theorem C15_condition_types_stay_unique_witness :
    ((setReadyCondition Sample.t0
        { RecommendedValue := "", LastUpdateTime := none,
          Conditions :=
            [{ Type_ := "Available", Status := "True", ObservedGeneration := 0,
               LastTransitionTime := 0, Reason := "r", Message := "m" },
             { Type_ := "Ready", Status := "True", ObservedGeneration := 0,
               LastTransitionTime := 0, Reason := "r", Message := "m" }] }
        ConditionFalse "FailedOfferRecommend" "failed").Conditions.map Condition.Type_).Nodup ∧
    ((setReadyCondition Sample.t0
        { RecommendedValue := "", LastUpdateTime := none,
          Conditions :=
            [{ Type_ := "Available", Status := "True", ObservedGeneration := 0,
               LastTransitionTime := 0, Reason := "r", Message := "m" },
             { Type_ := "Ready", Status := "True", ObservedGeneration := 0,
               LastTransitionTime := 0, Reason := "r", Message := "m" }] }
        ConditionFalse "FailedOfferRecommend" "failed").Conditions.map
          Condition.Type_).count "Ready" = 1 :=
  (C15_condition_types_stay_unique Sample.t0 _ ConditionFalse "FailedOfferRecommend" "failed"
    (by decide)).1

/-! ## A whole pass -/

theorem setReadyConditionList_ne_nil (now : Time) (conditionStatus reason message : String)
    (l : List Condition) :
    setReadyConditionList now conditionStatus reason message l ≠ [] := by
  cases l with
  | nil => simp [setReadyConditionList]
  | cons a rest =>
    simp only [setReadyConditionList]
    split <;> simp

theorem DoRecommendStages_snd_ne_nil (env : Env) (clock : Clock) (w : World)
    (r : Recommendation) : (DoRecommendStages env clock w r).2.Conditions ≠ [] := by
  cases h : env.NewRecommender r with
  | error e =>
    rw [DoRecommendStages_create_fails env clock w r e h]
    exact setReadyConditionList_ne_nil _ _ _ _ _
  | ok recommender =>
    cases ho : recommender.Offer with
    | error e =>
      rw [DoRecommendStages_offer_fails env clock w r recommender e h ho]
      exact setReadyConditionList_ne_nil _ _ _ _ _
    | ok proposed =>
      rcases hu : env.UpdateRecommendation r proposed r.Status with ⟨st, _ | e⟩
      · rw [DoRecommendStages_success env clock w r recommender proposed st h ho hu]
        exact setReadyConditionList_ne_nil _ _ _ _ _
      · rw [DoRecommendStages_apply_fails env clock w r recommender proposed st e h ho hu]
        exact setReadyConditionList_ne_nil _ _ _ _ _

theorem DoRecommend_snd_conditions (env : Env) (clock : Clock) (w : World)
    (r : Recommendation) :
    (DoRecommend env clock w r).2.Status.Conditions =
      (DoRecommendStages env clock w r).2.Conditions := by
  unfold DoRecommend
  rw [UpdateStatus_snd]
  split
  · next h => rw [h]
  · rfl

theorem DoRecommend_fresh (env : Env) (clock : Clock) (w : World) (r : Recommendation)
    (hC : r.Status.Conditions = []) (hUpd : ∀ x, env.Update x = none) :
    DoRecommend env clock w r =
      ({ (DoRecommendStages env clock w r).1 with
          updates := w.updates ++
            [{ r with Status := { (DoRecommendStages env clock w r).2 with
                LastUpdateTime := some clock.tUpdate } }]
          stored := some { r with Status := { (DoRecommendStages env clock w r).2 with
                LastUpdateTime := some clock.tUpdate } } },
       { r with Status := { (DoRecommendStages env clock w r).2 with
                LastUpdateTime := some clock.tUpdate } }) := by
  have hne : r.Status ≠ (DoRecommendStages env clock w r).2 := by
    intro heq
    have h1 := DoRecommendStages_snd_ne_nil env clock w r
    rw [← heq, hC] at h1
    exact h1 rfl
  unfold DoRecommend
  rw [UpdateStatus_differs env clock _ r _ hne, hUpd, (DoRecommendStages_store env clock w r).1]

/-- C16 (as amended): a Periodical Recommendation with configured period `p`,
`1 ≤ p ≤ 9223372036`, no conditions, nil `lastUpdateTime`, no deletion marker and an empty
`targetRef.namespace`; the three stages succeed, the value application leaves the
conditions as they are, the store accepts the update.  Then the stages are called on the
object whose `targetRef.namespace` is the object's namespace, the object in memory and in
the store has exactly one condition, Ready with status True, its `lastUpdateTime` is the
clock reading of `UpdateStatus`, no event is recorded, and `Reconcile` returns a nil
error and asks for a run after `p` seconds. -/
theorem C16_periodical_end_to_end (env : Env) (clock : Clock) (w : World) (req : Request)
    (r d : Recommendation) (p : Int) (recommender : Recommender)
    (proposed : ProposedRecommendation) (st : RecommendationStatus)
    (hGet : ClientGet env w req = .ok r) (hDel : r.DeletionTimestamp = none)
    (hT : r.Spec.CompletionStrategy.CompletionStrategyType = CompletionStrategyPeriodical)
    (hP : r.Spec.CompletionStrategy.PeriodSeconds = some p)
    (hp1 : 1 ≤ p) (hp2 : p ≤ 9223372036)
    (hC : r.Status.Conditions = []) (hL : r.Status.LastUpdateTime = none)
    (hN : r.Spec.TargetRef.Namespace = "")
    (hd : d = { r with Spec := { r.Spec with TargetRef := { r.Spec.TargetRef with
          Namespace := r.Namespace } } })
    (hNew : env.NewRecommender d = .ok recommender)
    (hOffer : recommender.Offer = .ok proposed)
    (hApply : env.UpdateRecommendation d proposed d.Status = (st, none))
    (hKeep : env.keepsConditions) (hUpd : ∀ x, env.Update x = none) :
    ∃ o x, Reconcile env clock w req = some o ∧ o.err = none ∧
      o.result = { Requeue := false, RequeueAfter := p * 1000000000 } ∧ o.result.requeues ∧
      o.world.calls = w.calls ++
        [.NewRecommender d, .Offer, .UpdateRecommendation d proposed d.Status] ∧
      d.Spec.TargetRef.Namespace = r.Namespace ∧
      o.world.events = w.events ∧
      o.world.updates = w.updates ++ [x] ∧
      o.world.stored = some x ∧ o.recommendation = some x ∧
      x.Spec = d.Spec ∧
      x.Status.Conditions =
        [{ Type_ := "Ready", Status := ConditionTrue, ObservedGeneration := 0,
           LastTransitionTime := clock.tCondition, Reason := "RecommendationReady",
           Message := "Recommendation is ready" }] ∧
      x.Status.LastUpdateTime = some clock.tUpdate := by
  have hdue := ShouldRecommend_nil clock.tShould r hL
  have hdef : defaultTargetRefNamespace r = d := by
    rw [hd]
    unfold defaultTargetRefNamespace
    rw [if_pos hN]
  have hdC : d.Status.Conditions = [] := by rw [hd]; exact hC
  have hstC : st.Conditions = [] := by
    have h := hKeep d proposed d.Status
    rw [hApply] at h
    exact h.trans hdC
  have hstages := DoRecommendStages_success env clock w d recommender proposed st hNew hOffer
    hApply
  have hrec := Reconcile_due env clock w req r hGet hDel hdue
  rw [hdef, DoRecommend_fresh env clock w d hdC hUpd, hstages] at hrec
  have hm := Duration_seconds_mul p (by omega) hp2
  have hpos : (0 : Int) < p * 1000000000 := by omega
  refine ⟨_, _, hrec, rfl, ?_, ?_, ?_, ?_, rfl, rfl, rfl, rfl, rfl, ?_, rfl⟩
  · simp only [hT, hP, if_true, hm]
  · simp only [hT, hP, if_true, hm]
    exact Or.inr hpos
  · simp [World.call]
  · rw [hd]
  · show setReadyConditionList clock.tCondition ConditionTrue "RecommendationReady"
      "Recommendation is ready" st.Conditions = _
    rw [hstC]
    rfl

/-- C16, witness: the specification's scenario, `Periodical{300}` on `prod/web-rec` with
no prior status and an empty `targetRef.namespace`, all stages and the write succeeding:
the pass asks for a run after 300 seconds and stores one Ready = True condition. -/
theorem C16_periodical_end_to_end_witness :
    ∃ o x, Reconcile Sample.envOk (Sample.clockAt Sample.t0)
        (World.init (some (Sample.recommendation CompletionStrategyPeriodical (some 300) none)))
        Sample.request = some o ∧
      o.err = none ∧ o.result = { Requeue := false, RequeueAfter := 300 * 1000000000 } ∧
      o.world.stored = some x ∧
      x.Status.Conditions.map (fun c => (c.Type_, c.Status)) = [("Ready", "True")] ∧
      x.Status.LastUpdateTime = some (Sample.t0 + 2000000000) := by
  obtain ⟨o, x, ho, herr, hres, _, _, _, _, _, hst, _, _, hc, hl⟩ :=
    C16_periodical_end_to_end Sample.envOk (Sample.clockAt Sample.t0)
      (World.init (some (Sample.recommendation CompletionStrategyPeriodical (some 300) none)))
      Sample.request (Sample.recommendation CompletionStrategyPeriodical (some 300) none)
      _ 300 { Offer := .ok { payload := "cpu: 250m" } } { payload := "cpu: 250m" } _
      rfl rfl rfl rfl (by decide) (by decide) rfl rfl rfl rfl rfl rfl rfl
      (fun _ _ _ => rfl) (fun _ => rfl)
  refine ⟨o, x, ho, herr, hres, hst, ?_, hl⟩
  rw [hc]
  rfl

/-- C16, counterexample to the claim as stated: the configured period 9223372037 is an
`int64`; all stages and the write succeed and `Reconcile` returns a nil error, but the
delay it returns is the wrapped product, a negative duration and not 9223372037 seconds,
and the result requests no run. -/
theorem C16_counterexample_period_overflow :
    (9223372037 : Int) ≤ maxInt64 ∧
    (Reconcile Sample.envOk (Sample.clockAt Sample.t0)
        (World.init (some (Sample.recommendation CompletionStrategyPeriodical
          (some 9223372037) none)))
        Sample.request).map (fun o => (o.err, o.result, decide o.result.requeues))
      = some (none, { Requeue := false, RequeueAfter := -9223372036709551616 }, false) ∧
    (Reconcile Sample.envOk (Sample.clockAt Sample.t0)
        (World.init (some (Sample.recommendation CompletionStrategyPeriodical
          (some 9223372037) none)))
        Sample.request).map (fun o =>
          o.world.stored.map (fun x => x.Status.Conditions.map (fun c => (c.Type_, c.Status))))
      = some (some [("Ready", "True")]) ∧
    (-9223372036709551616 : Int) ≠ 9223372037 * 1000000000 := by
  refine ⟨by decide, by decide, by decide, by decide⟩

/-! ## A failed write of the status -/

theorem UpdateStatus_update_fails (env : Env) (clock : Clock) (w : World) (r : Recommendation)
    (newStatus : RecommendationStatus) (e : String) (hne : r.Status ≠ newStatus)
    (hfail : env.Update
      { r with Status := { newStatus with LastUpdateTime := some clock.tUpdate } } = some e) :
    UpdateStatus env clock w r newStatus =
      ({ w with
          updates := w.updates ++
            [{ r with Status := { newStatus with LastUpdateTime := some clock.tUpdate } }]
          events := w.events ++
            [{ Namespace := r.Namespace, Name := r.Name, EventType := EventTypeWarning,
               Reason := "FailedUpdateStatus", Message := e }] },
       { r with Status := { newStatus with LastUpdateTime := some clock.tUpdate } }) := by
  rw [UpdateStatus_differs env clock w r newStatus hne, hfail]
  rfl

/-- C17: when `UpdateStatus` is called with a status that differs and the store rejects
the update, one warning event with reason `FailedUpdateStatus` is recorded, the object in
memory has the new status with the stamped `lastUpdateTime`, the stored object is
unchanged, exactly one update call is made and no pipeline stage is called; a pass of
`Reconcile` in which this happens returns a nil error and leaves the store as it was. -/
theorem C17_failed_update_stays_in_memory (env : Env) (clock : Clock) :
    (∀ (w : World) (r : Recommendation) (newStatus : RecommendationStatus) (e : String),
      r.Status ≠ newStatus →
      env.Update { r with Status := { newStatus with LastUpdateTime := some clock.tUpdate } }
        = some e →
      (UpdateStatus env clock w r newStatus).1.events = w.events ++
        [{ Namespace := r.Namespace, Name := r.Name, EventType := EventTypeWarning,
           Reason := "FailedUpdateStatus", Message := e }] ∧
      (UpdateStatus env clock w r newStatus).2 =
        { r with Status := { newStatus with LastUpdateTime := some clock.tUpdate } } ∧
      (UpdateStatus env clock w r newStatus).1.stored = w.stored ∧
      (UpdateStatus env clock w r newStatus).1.updates = w.updates ++
        [{ r with Status := { newStatus with LastUpdateTime := some clock.tUpdate } }] ∧
      (UpdateStatus env clock w r newStatus).1.calls = w.calls) ∧
    (∀ (w : World) (req : Request) (r : Recommendation) (e : String),
      ClientGet env w req = .ok r → r.DeletionTimestamp = none →
      ShouldRecommend clock.tShould r = some true →
      (defaultTargetRefNamespace r).Status ≠
        (DoRecommendStages env clock w (defaultTargetRefNamespace r)).2 →
      env.Update { defaultTargetRefNamespace r with Status :=
        { (DoRecommendStages env clock w (defaultTargetRefNamespace r)).2 with
          LastUpdateTime := some clock.tUpdate } } = some e →
      ∃ o, Reconcile env clock w req = some o ∧ o.err = none ∧
        o.world.stored = w.stored ∧
        o.recommendation = some { defaultTargetRefNamespace r with Status :=
          { (DoRecommendStages env clock w (defaultTargetRefNamespace r)).2 with
            LastUpdateTime := some clock.tUpdate } } ∧
        o.world.updates = w.updates ++ [{ defaultTargetRefNamespace r with Status :=
          { (DoRecommendStages env clock w (defaultTargetRefNamespace r)).2 with
            LastUpdateTime := some clock.tUpdate } }] ∧
        o.world.events =
          (DoRecommendStages env clock w (defaultTargetRefNamespace r)).1.events ++
            [{ Namespace := r.Namespace, Name := r.Name, EventType := EventTypeWarning,
               Reason := "FailedUpdateStatus", Message := e }]) := by
  constructor
  · intro w r newStatus e hne hfail
    rw [UpdateStatus_update_fails env clock w r newStatus e hne hfail]
    exact ⟨rfl, rfl, rfl, rfl, rfl⟩
  · intro w req r e hGet hDel hDue hne hfail
    have hrec := Reconcile_due env clock w req r hGet hDel hDue
    have hdo : DoRecommend env clock w (defaultTargetRefNamespace r) = _ :=
      UpdateStatus_update_fails env clock
        (DoRecommendStages env clock w (defaultTargetRefNamespace r)).1
        (defaultTargetRefNamespace r)
        (DoRecommendStages env clock w (defaultTargetRefNamespace r)).2 e hne hfail
    rw [hdo] at hrec
    have hstore := DoRecommendStages_store env clock w (defaultTargetRefNamespace r)
    have hns : (defaultTargetRefNamespace r).Namespace = r.Namespace := by
      rw [defaultTargetRefNamespace_eq]
    have hname : (defaultTargetRefNamespace r).Name = r.Name := by
      rw [defaultTargetRefNamespace_eq]
    refine ⟨_, hrec, rfl, hstore.2, rfl, ?_, ?_⟩
    · show (DoRecommendStages env clock w (defaultTargetRefNamespace r)).1.updates ++ _ = _
      rw [hstore.1]
    · show (DoRecommendStages env clock w (defaultTargetRefNamespace r)).1.events ++ _ = _
      rw [hns, hname]

/-- C17, witness: all stages succeed and the store rejects the write; the pass returns a
nil error, records the `FailedUpdateStatus` warning after no other event, and leaves the
stored object without status. -/
theorem C17_failed_update_stays_in_memory_witness :
    ∃ o, Reconcile Sample.envUpdateFails (Sample.clockAt Sample.t0)
        (World.init (some (Sample.recommendation CompletionStrategyOnce none none)))
        Sample.request = some o ∧
      o.err = none ∧
      o.world.stored = some (Sample.recommendation CompletionStrategyOnce none none) ∧
      o.world.events.map (fun ev => (ev.EventType, ev.Reason, ev.Message)) =
        [("Warning", "FailedUpdateStatus", "the object has been modified")] := by
  obtain ⟨o, ho, herr, hst, _, _, hev⟩ :=
    (C17_failed_update_stays_in_memory Sample.envUpdateFails (Sample.clockAt Sample.t0)).2
      (World.init (some (Sample.recommendation CompletionStrategyOnce none none)))
      Sample.request (Sample.recommendation CompletionStrategyOnce none none)
      "the object has been modified" rfl rfl (by decide) (by decide) rfl
  refine ⟨o, ho, herr, hst, ?_⟩
  rw [hev]
  decide

/-! ## The Ready condition after a failure -/

theorem DoRecommendStages_ready (env : Env) (clock : Clock) (w : World) (r : Recommendation) :
    (∀ e, env.NewRecommender r = .error e →
      ∃ c, readyCondition (DoRecommendStages env clock w r).2 = some c ∧
        c.Status = ConditionFalse ∧ c.Reason = "FailedCreateRecommender") ∧
    (∀ recommender e, env.NewRecommender r = .ok recommender →
      recommender.Offer = .error e →
      ∃ c, readyCondition (DoRecommendStages env clock w r).2 = some c ∧
        c.Status = ConditionFalse ∧ c.Reason = "FailedOfferRecommend") ∧
    (∀ recommender proposed st e, env.NewRecommender r = .ok recommender →
      recommender.Offer = .ok proposed →
      env.UpdateRecommendation r proposed r.Status = (st, some e) →
      ∃ c, readyCondition (DoRecommendStages env clock w r).2 = some c ∧
        c.Status = ConditionFalse ∧ c.Reason = "FailedUpdateRecommendationValue") ∧
    (∀ recommender proposed st, env.NewRecommender r = .ok recommender →
      recommender.Offer = .ok proposed →
      env.UpdateRecommendation r proposed r.Status = (st, none) →
      ∃ c, readyCondition (DoRecommendStages env clock w r).2 = some c ∧
        c.Status = ConditionTrue ∧ c.Reason = "RecommendationReady") := by
  refine ⟨?_, ?_, ?_, ?_⟩
  · intro e h
    rw [DoRecommendStages_create_fails env clock w r e h]
    obtain ⟨c, hc, _, hs, hr, _⟩ := readyCondition_setReadyCondition clock.tCondition r.Status
      ConditionFalse "FailedCreateRecommender"
      ("Failed to create recommender, Recommendation " ++ KObj r ++ " error " ++ e)
    exact ⟨c, hc, hs, hr⟩
  · intro recommender e h ho
    rw [DoRecommendStages_offer_fails env clock w r recommender e h ho]
    obtain ⟨c, hc, _, hs, hr, _⟩ := readyCondition_setReadyCondition clock.tCondition r.Status
      ConditionFalse "FailedOfferRecommend"
      ("Failed to offer recommend, Recommendation " ++ KObj r ++ ": " ++ e)
    exact ⟨c, hc, hs, hr⟩
  · intro recommender proposed st e h ho hu
    rw [DoRecommendStages_apply_fails env clock w r recommender proposed st e h ho hu]
    obtain ⟨c, hc, _, hs, hr, _⟩ := readyCondition_setReadyCondition clock.tCondition st
      ConditionFalse "FailedUpdateRecommendationValue"
      ("Failed to update recommendation value, Recommendation " ++ KObj r ++ ": " ++ e)
    exact ⟨c, hc, hs, hr⟩
  · intro recommender proposed st h ho hu
    rw [DoRecommendStages_success env clock w r recommender proposed st h ho hu]
    obtain ⟨c, hc, _, hs, hr, _⟩ := readyCondition_setReadyCondition clock.tCondition st
      ConditionTrue "RecommendationReady" "Recommendation is ready"
    exact ⟨c, hc, hs, hr⟩

theorem Reconcile_due_ready (env : Env) (clock : Clock) (w : World) (req : Request)
    (r : Recommendation) (hGet : ClientGet env w req = .ok r)
    (hDel : r.DeletionTimestamp = none)
    (hDue : ShouldRecommend clock.tShould r = some true) :
    ∃ o x, Reconcile env clock w req = some o ∧ o.err = none ∧ o.recommendation = some x ∧
      o.world = (DoRecommend env clock w (defaultTargetRefNamespace r)).1 ∧
      readyCondition x.Status =
        readyCondition (DoRecommendStages env clock w (defaultTargetRefNamespace r)).2 := by
  refine ⟨_, _, Reconcile_due env clock w req r hGet hDel hDue, rfl, rfl, rfl, ?_⟩
  unfold readyCondition
  rw [DoRecommend_snd_conditions]

/-- C18 (as amended): in a pass over a loaded, undeleted and due Recommendation in which
the construction of the recommender, `Offer` or the value application fails, the Ready
condition of the object after the pass is False with the reason of that stage,
`FailedCreateRecommender`, `FailedOfferRecommend` or `FailedUpdateRecommendationValue`.
A failed write of the status is not reflected in the Ready condition: it is reported as
a warning event with reason `FailedUpdateStatus`, and the Ready condition of the object
in memory is the one the stages produced, True when the three stages succeeded. -/
theorem C18_ready_condition_after_failure (env : Env) (clock : Clock) (w : World)
    (req : Request) (r : Recommendation) (hGet : ClientGet env w req = .ok r)
    (hDel : r.DeletionTimestamp = none)
    (hDue : ShouldRecommend clock.tShould r = some true) :
    ∃ o x, Reconcile env clock w req = some o ∧ o.err = none ∧ o.recommendation = some x ∧
      (∀ e, env.NewRecommender (defaultTargetRefNamespace r) = .error e →
        ∃ c, readyCondition x.Status = some c ∧ c.Status = ConditionFalse ∧
          c.Reason = "FailedCreateRecommender") ∧
      (∀ recommender e, env.NewRecommender (defaultTargetRefNamespace r) = .ok recommender →
        recommender.Offer = .error e →
        ∃ c, readyCondition x.Status = some c ∧ c.Status = ConditionFalse ∧
          c.Reason = "FailedOfferRecommend") ∧
      (∀ recommender proposed st e,
        env.NewRecommender (defaultTargetRefNamespace r) = .ok recommender →
        recommender.Offer = .ok proposed →
        env.UpdateRecommendation (defaultTargetRefNamespace r) proposed
          (defaultTargetRefNamespace r).Status = (st, some e) →
        ∃ c, readyCondition x.Status = some c ∧ c.Status = ConditionFalse ∧
          c.Reason = "FailedUpdateRecommendationValue") ∧
      (∀ recommender proposed st e,
        env.NewRecommender (defaultTargetRefNamespace r) = .ok recommender →
        recommender.Offer = .ok proposed →
        env.UpdateRecommendation (defaultTargetRefNamespace r) proposed
          (defaultTargetRefNamespace r).Status = (st, none) →
        (defaultTargetRefNamespace r).Status ≠
          (DoRecommendStages env clock w (defaultTargetRefNamespace r)).2 →
        env.Update { defaultTargetRefNamespace r with Status :=
          { (DoRecommendStages env clock w (defaultTargetRefNamespace r)).2 with
            LastUpdateTime := some clock.tUpdate } } = some e →
        (∃ c, readyCondition x.Status = some c ∧ c.Status = ConditionTrue ∧
          c.Reason = "RecommendationReady") ∧
        o.world.stored = w.stored ∧
        o.world.events = w.events ++
          [{ Namespace := r.Namespace, Name := r.Name, EventType := EventTypeWarning,
             Reason := "FailedUpdateStatus", Message := e }]) := by
  obtain ⟨o, x, ho, herr, hx, hw, hready⟩ := Reconcile_due_ready env clock w req r hGet hDel hDue
  have stage := DoRecommendStages_ready env clock w (defaultTargetRefNamespace r)
  refine ⟨o, x, ho, herr, hx, ?_, ?_, ?_, ?_⟩
  · intro e h
    rw [hready]
    exact stage.1 e h
  · intro recommender e h hof
    rw [hready]
    exact stage.2.1 recommender e h hof
  · intro recommender proposed st e h hof hu
    rw [hready]
    exact stage.2.2.1 recommender proposed st e h hof hu
  · intro recommender proposed st e h hof hu hne hfail
    have hs := DoRecommendStages_success env clock w (defaultTargetRefNamespace r) recommender
      proposed st h hof hu
    have hns : (defaultTargetRefNamespace r).Namespace = r.Namespace := by
      rw [defaultTargetRefNamespace_eq]
    have hname : (defaultTargetRefNamespace r).Name = r.Name := by
      rw [defaultTargetRefNamespace_eq]
    refine ⟨?_, ?_, ?_⟩
    · rw [hready]
      exact stage.2.2.2 recommender proposed st h hof hu
    · rw [hw]
      unfold DoRecommend
      rw [UpdateStatus_update_fails env clock _ _ _ e hne hfail]
      exact (DoRecommendStages_store env clock w (defaultTargetRefNamespace r)).2
    · rw [hw]
      unfold DoRecommend
      rw [UpdateStatus_update_fails env clock _ _ _ e hne hfail]
      show (DoRecommendStages env clock w (defaultTargetRefNamespace r)).1.events ++ _ = _
      rw [hs, hns, hname]
      rfl

/-- C18, witness: the recommender is constructed and `Offer` fails; after the pass the
Ready condition of the object is False with reason `FailedOfferRecommend`. -/
theorem C18_ready_condition_after_failure_witness :
    ∃ o x c, Reconcile Sample.envOfferFails (Sample.clockAt Sample.t0)
        (World.init (some (Sample.recommendation CompletionStrategyPeriodical (some 300) none)))
        Sample.request = some o ∧
      o.recommendation = some x ∧ readyCondition x.Status = some c ∧
      c.Status = ConditionFalse ∧ c.Reason = "FailedOfferRecommend" := by
  obtain ⟨o, x, ho, _, hx, _, hoffer, _, _⟩ :=
    C18_ready_condition_after_failure Sample.envOfferFails (Sample.clockAt Sample.t0)
      (World.init (some (Sample.recommendation CompletionStrategyPeriodical (some 300) none)))
      Sample.request (Sample.recommendation CompletionStrategyPeriodical (some 300) none)
      rfl rfl (by decide)
  obtain ⟨c, hc, hs, hr⟩ := hoffer { Offer := .error "no target found" } "no target found"
    rfl rfl
  exact ⟨o, x, c, ho, hx, hc, hs, hr⟩

/-- C18, counterexample to the claim as stated: the three stages succeed and the write of
the status fails, a failure of the persistence class.  After the pass the Ready condition
of the object in memory is True with reason `RecommendationReady`, the stored object has
no Ready condition, and `FailedUpdateStatus` is the reason of the one event recorded. -/
theorem C18_counterexample_failed_write :
    (Reconcile Sample.envUpdateFails (Sample.clockAt Sample.t0)
        (World.init (some (Sample.recommendation CompletionStrategyPeriodical (some 300) none)))
        Sample.request).map
        (fun o => o.recommendation.map (fun x =>
          (readyCondition x.Status).map (fun c => (c.Status, c.Reason))))
      = some (some (some ("True", "RecommendationReady"))) ∧
    (Reconcile Sample.envUpdateFails (Sample.clockAt Sample.t0)
        (World.init (some (Sample.recommendation CompletionStrategyPeriodical (some 300) none)))
        Sample.request).map
        (fun o => o.world.stored.map (fun x =>
          (readyCondition x.Status).map (fun c => (c.Status, c.Reason))))
      = some (some none) ∧
    (Reconcile Sample.envUpdateFails (Sample.clockAt Sample.t0)
        (World.init (some (Sample.recommendation CompletionStrategyPeriodical (some 300) none)))
        Sample.request).map (fun o => o.world.events.map (fun ev => ev.Reason))
      = some ["FailedUpdateStatus"] := by
  refine ⟨by decide, by decide, by decide⟩

/-! ## A Once Recommendation over a sequence of passes -/

theorem Reconcile_once_done (env : Env) (clock : Clock) (w : World) (req : Request)
    (x : Recommendation) (hw : w.stored = some x)
    (hT : x.Spec.CompletionStrategy.CompletionStrategyType = CompletionStrategyOnce)
    (hL : x.Status.LastUpdateTime ≠ none) :
    ∃ o, Reconcile env clock w req = some o ∧ o.world = w ∧ o.result = Result.empty := by
  rcases Except_cases (ClientGet env w req) with ⟨e, hGet⟩ | ⟨r, hGet⟩
  · refine ⟨{ result := Result.empty, err := IgnoreNotFound e, world := w,
              recommendation := none }, ?_, rfl, rfl⟩
    unfold Reconcile
    simp only [hGet]
  · have hr : r = x := by
      unfold ClientGet at hGet
      rw [hw] at hGet
      cases hge : env.GetError with
      | some text => rw [hge] at hGet; cases hGet
      | none =>
        rw [hge] at hGet
        simp only at hGet
        split at hGet
        · cases hGet; rfl
        · cases hGet
    subst hr
    cases hd : r.DeletionTimestamp with
    | some t =>
      refine ⟨{ result := Result.empty, err := none, world := w,
                recommendation := some r }, ?_, rfl, rfl⟩
      unfold Reconcile
      simp only [hGet, hd]
    | none =>
      have hnot : ShouldRecommend clock.tShould r = some false := by
        unfold ShouldRecommend
        simp only [hT, if_true]
        cases hl : r.Status.LastUpdateTime with
        | none => exact absurd hl hL
        | some t => rfl
      refine ⟨{ result := Result.empty, err := none, world := w,
                recommendation := some r }, ?_, rfl, rfl⟩
      unfold Reconcile
      simp only [hGet, hd, hnot]

theorem runPasses_once_done (passes : List Pass) (w : World) (x : Recommendation)
    (hw : w.stored = some x)
    (hT : x.Spec.CompletionStrategy.CompletionStrategyType = CompletionStrategyOnce)
    (hL : x.Status.LastUpdateTime ≠ none) :
    runPasses passes w = some (List.replicate passes.length Result.empty, w) := by
  induction passes with
  | nil => rfl
  | cons pass rest ih =>
    obtain ⟨o, ho, how, hres⟩ := Reconcile_once_done pass.env pass.clock w pass.req x hw hT hL
    unfold runPasses
    rw [ho]
    simp only [how, ih, hres]
    rfl

/-- C19 (as amended): a Once Recommendation with no conditions, nil `lastUpdateTime` and no
deletion marker is in the store and is requested, and the store accepts the update.  Whatever the
stages of the pipeline answer, the first pass calls the pipeline and leaves the object in
memory and in the store with `lastUpdateTime` set; and every sequence of later passes,
whatever their collaborators, clocks and requests, leaves the world exactly as the first
pass left it (no stage called, no write, no event) with every result `ctrl.Result{}`. -/
theorem C19_once_fires_once (env : Env) (clock : Clock) (w : World) (req : Request)
    (r : Recommendation) (later : List Pass)
    (hw : w.stored = some r) (hKey : r.Namespace = req.Namespace ∧ r.Name = req.Name)
    (hGetOk : env.GetError = none) (hDel : r.DeletionTimestamp = none)
    (hT : r.Spec.CompletionStrategy.CompletionStrategyType = CompletionStrategyOnce)
    (hC : r.Status.Conditions = []) (hL : r.Status.LastUpdateTime = none)
    (hUpd : ∀ x, env.Update x = none) :
    ∃ o x, Reconcile env clock w req = some o ∧ o.err = none ∧ o.result = Result.empty ∧
      (∃ cs, o.world.calls = w.calls ++ .NewRecommender (defaultTargetRefNamespace r) :: cs) ∧
      o.recommendation = some x ∧ o.world.stored = some x ∧
      o.world.updates = w.updates ++ [x] ∧
      x.Status.LastUpdateTime = some clock.tUpdate ∧
      runPasses later o.world = some (List.replicate later.length Result.empty, o.world) ∧
      ¬ Result.empty.requeues := by
  have hGet : ClientGet env w req = .ok r := by
    unfold ClientGet
    rw [hGetOk, hw]
    simp only [hKey, and_self, if_true]
  have hdue := ShouldRecommend_nil clock.tShould r hL
  have hrec := Reconcile_due env clock w req r hGet hDel hdue
  have hdC : (defaultTargetRefNamespace r).Status.Conditions = [] := by
    rw [defaultTargetRefNamespace_eq]
    exact hC
  have hStrat := defaultTargetRefNamespace_strategy r
  have hne : CompletionStrategyOnce ≠ CompletionStrategyPeriodical := by decide
  rw [DoRecommend_fresh env clock w (defaultTargetRefNamespace r) hdC hUpd] at hrec
  rw [hT, if_neg hne] at hrec
  obtain ⟨cs, hcs, _⟩ := DoRecommendStages_calls env clock w (defaultTargetRefNamespace r)
  refine ⟨_, _, hrec, rfl, rfl, ⟨cs, hcs⟩, rfl, rfl, rfl, rfl, ?_, by decide⟩
  apply runPasses_once_done later _ _ rfl
  · show (defaultTargetRefNamespace r).Spec.CompletionStrategy.CompletionStrategyType = _
    rw [hStrat]
    exact hT
  · intro h
    cases h

/-- C19, witness: the Once object `prod/web-rec` without status, a first pass whose
`Offer` fails, then a pass with a working pipeline ten seconds later and a pass a day
later: the first pass stores `lastUpdateTime`, the two later passes change nothing and
request nothing. -/
theorem C19_once_fires_once_witness :
    ∃ o x, Reconcile Sample.envOfferFails (Sample.clockAt Sample.t0)
        (World.init (some (Sample.recommendation CompletionStrategyOnce none none)))
        Sample.request = some o ∧
      o.world.stored = some x ∧
      x.Status.LastUpdateTime = some (Sample.t0 + 2000000000) ∧
      runPasses
        [{ env := Sample.envOk, clock := Sample.clockAt (Sample.t0 + 10000000000),
           req := Sample.request },
         { env := Sample.envOk, clock := Sample.clockAt (Sample.t0 + 86400000000000),
           req := Sample.request }] o.world
        = some ([Result.empty, Result.empty], o.world) := by
  obtain ⟨o, x, ho, _, _, _, _, hst, _, hl, hrun, _⟩ :=
    C19_once_fires_once Sample.envOfferFails (Sample.clockAt Sample.t0)
      (World.init (some (Sample.recommendation CompletionStrategyOnce none none)))
      Sample.request (Sample.recommendation CompletionStrategyOnce none none)
      [{ env := Sample.envOk, clock := Sample.clockAt (Sample.t0 + 10000000000),
         req := Sample.request },
       { env := Sample.envOk, clock := Sample.clockAt (Sample.t0 + 86400000000000),
         req := Sample.request }]
      rfl (by decide) rfl rfl rfl rfl rfl (fun _ => rfl)
  exact ⟨o, x, ho, hst, hl, hrun⟩

/-- C19, counterexample to the claim as stated: a Once object with no conditions and nil
`lastUpdateTime` that carries a deletion marker.  The first pass returns at the check of
the deletion marker: it returns `ctrl.Result{}` and a nil error, calls no stage of the
pipeline, issues no update, and the object in memory and in the store still has a nil
`lastUpdateTime`. -/
theorem C19_counterexample_deletion_marker :
    (Sample.deleted CompletionStrategyOnce none none).Spec.CompletionStrategy.CompletionStrategyType
      = CompletionStrategyOnce ∧
    (Sample.deleted CompletionStrategyOnce none none).Status.Conditions = [] ∧
    (Sample.deleted CompletionStrategyOnce none none).Status.LastUpdateTime = none ∧
    (Reconcile Sample.envOk (Sample.clockAt Sample.t0)
        (World.init (some (Sample.deleted CompletionStrategyOnce none none)))
        Sample.request).map (fun o => (o.result, o.err, o.world.calls, o.world.updates))
      = some (Result.empty, none, [], []) ∧
    (Reconcile Sample.envOk (Sample.clockAt Sample.t0)
        (World.init (some (Sample.deleted CompletionStrategyOnce none none)))
        Sample.request).map
        (fun o => (o.recommendation.map (fun x => x.Status.LastUpdateTime),
          o.world.stored.map (fun x => x.Status.LastUpdateTime)))
      = some (some none, some none) := by
  refine ⟨rfl, rfl, rfl, by decide, by decide⟩

/-! ## The events of the stages -/

/-- C20, what the stages record: exactly one warning event when a stage fails and none
when all succeed; for a failed construction and a failed value application the reason of
the event is the reason of the Ready condition, but for a failed `Offer` the event has
reason `FailedOfferRecommendation` (line 113) while the Ready condition has reason
`FailedOfferRecommend` (line 116), as the pass over `prod/web-rec` with a failing `Offer`
shows. -/
theorem C20_stage_events (env : Env) (clock : Clock) (w : World) (r : Recommendation) :
    (∀ e, env.NewRecommender r = .error e →
      (DoRecommendStages env clock w r).1.events = w.events ++
        [{ Namespace := r.Namespace, Name := r.Name, EventType := EventTypeWarning,
           Reason := "FailedCreateRecommender", Message := e }]) ∧
    (∀ recommender e, env.NewRecommender r = .ok recommender →
      recommender.Offer = .error e →
      (DoRecommendStages env clock w r).1.events = w.events ++
        [{ Namespace := r.Namespace, Name := r.Name, EventType := EventTypeWarning,
           Reason := "FailedOfferRecommendation", Message := e }] ∧
      (∃ c, readyCondition (DoRecommendStages env clock w r).2 = some c ∧
        c.Reason = "FailedOfferRecommend") ∧
      "FailedOfferRecommendation" ≠ "FailedOfferRecommend") ∧
    (∀ recommender proposed st e, env.NewRecommender r = .ok recommender →
      recommender.Offer = .ok proposed →
      env.UpdateRecommendation r proposed r.Status = (st, some e) →
      (DoRecommendStages env clock w r).1.events = w.events ++
        [{ Namespace := r.Namespace, Name := r.Name, EventType := EventTypeWarning,
           Reason := "FailedUpdateRecommendationValue", Message := e }]) ∧
    (∀ recommender proposed st, env.NewRecommender r = .ok recommender →
      recommender.Offer = .ok proposed →
      env.UpdateRecommendation r proposed r.Status = (st, none) →
      (DoRecommendStages env clock w r).1.events = w.events) ∧
    (Reconcile Sample.envOfferFails (Sample.clockAt Sample.t0)
        (World.init (some (Sample.recommendation CompletionStrategyPeriodical (some 300) none)))
        Sample.request).map
        (fun o => (o.world.events.map (fun ev => (ev.EventType, ev.Reason)),
          o.recommendation.map (fun x =>
            (readyCondition x.Status).map (fun c => (c.Status, c.Reason)))))
      = some ([("Warning", "FailedOfferRecommendation")],
          some (some ("False", "FailedOfferRecommend"))) := by
  refine ⟨?_, ?_, ?_, ?_, by decide⟩
  · intro e h
    rw [DoRecommendStages_create_fails env clock w r e h]
    rfl
  · intro recommender e h ho
    refine ⟨?_, ?_, by decide⟩
    · rw [DoRecommendStages_offer_fails env clock w r recommender e h ho]
      rfl
    · obtain ⟨c, hc, _, hr⟩ := (DoRecommendStages_ready env clock w r).2.1 recommender e h ho
      exact ⟨c, hc, hr⟩
  · intro recommender proposed st e h ho hu
    rw [DoRecommendStages_apply_fails env clock w r recommender proposed st e h ho hu]
    rfl
  · intro recommender proposed st h ho hu
    rw [DoRecommendStages_success env clock w r recommender proposed st h ho hu]
    rfl

end Crane
